import Mathlib

/-!
Verification of the ADTA streaming statistics and event-detection engine
(`src/analysis/analyst.py`) against its specification.

Modelling conventions:
* Scalars are rationals (`ℚ`).  The two transcendental primitives that the
  code takes from numpy (`np.sqrt`, `np.exp`) are uninterpreted parameters
  bundled in `MathPrims`; every theorem quantifies over them, and concrete
  evaluations instantiate them with computable functions.
* `ValenceArousal` (called `VA` here) and `Buffer` come from `src/utils`,
  which is not part of the analysed sources; they are modelled from the
  spec: an immutable 2-vector with elementwise arithmetic, and an
  append-only sequence with Python-style negative indexing, `last(n)` and
  `np()` (dense-array) views.  A `Buffer` is a `List`, appended at the end.
* `Activator` (the spec's EventKind) comes from `src/analysis/activator.py`,
  also absent; it is modelled from the spec as a closed 6-variant enum.
* Timestamps (`datetime.timedelta`) are modelled as rational seconds.
* The `defaultdict(list)` of intersections is modelled as a total table
  `Timelines` with one list per `Activator` key (every missing key of the
  Python defaultdict reads as the empty list, the initial field value).
-/

namespace ADTA

/-- Modelled from the spec: `ValenceArousal`, an immutable pair of scalars
with elementwise arithmetic (`src/utils`, not among the analysed sources). -/
structure VA where
  v : ℚ
  a : ℚ
deriving DecidableEq

instance : Zero VA := ⟨⟨0, 0⟩⟩

instance : Add VA := ⟨fun x y => ⟨x.v + y.v, x.a + y.a⟩⟩

instance : Sub VA := ⟨fun x y => ⟨x.v - y.v, x.a - y.a⟩⟩

instance : Mul VA := ⟨fun x y => ⟨x.v * y.v, x.a * y.a⟩⟩

instance : HMul VA ℚ VA := ⟨fun x c => ⟨x.v * c, x.a * c⟩⟩

instance : HDiv VA ℚ VA := ⟨fun x c => ⟨x.v / c, x.a / c⟩⟩

@[simp] theorem VA.zero_v : (0 : VA).v = 0 := rfl

@[simp] theorem VA.zero_a : (0 : VA).a = 0 := rfl

@[simp] theorem VA.add_v (x y : VA) : (x + y).v = x.v + y.v := rfl

@[simp] theorem VA.add_a (x y : VA) : (x + y).a = x.a + y.a := rfl

@[simp] theorem VA.sub_v (x y : VA) : (x - y).v = x.v - y.v := rfl

@[simp] theorem VA.sub_a (x y : VA) : (x - y).a = x.a - y.a := rfl

@[simp] theorem VA.mul_v (x y : VA) : (x * y).v = x.v * y.v := rfl

@[simp] theorem VA.mul_a (x y : VA) : (x * y).a = x.a * y.a := rfl

@[simp] theorem VA.smul_v (x : VA) (c : ℚ) : (x * c).v = x.v * c := rfl

@[simp] theorem VA.smul_a (x : VA) (c : ℚ) : (x * c).a = x.a * c := rfl

@[simp] theorem VA.div_v (x : VA) (c : ℚ) : (x / c).v = x.v / c := rfl

@[simp] theorem VA.div_a (x : VA) (c : ℚ) : (x / c).a = x.a / c := rfl

theorem VA.ext_iff' (x y : VA) : x = y ↔ x.v = y.v ∧ x.a = y.a := by
  cases x; cases y; simp

/-- Modelled from the spec: the closed 6-variant EventKind enum
(`src/analysis/activator.py`, not among the analysed sources). -/
inductive Activator where
  | global_deviation
  | local_deviation
  | global_sigmoid_deviation
  | local_sigmoid_deviation
  | global_rapid_deprecation
  | local_rapid_deprecation
deriving DecidableEq

/-- The numpy scalar primitives the code uses whose exact float behaviour is
outside the embedding: `np.sqrt` and `np.exp`, applied elementwise. -/
structure MathPrims where
  sqrt : ℚ → ℚ
  exp : ℚ → ℚ

/-- Python `buf[-k]` (k ≥ 1) with a default, matching `Buffer` negative
indexing from the spec.  All uses in the code are guarded so the default is
never read on the guarded paths. -/
def negIdx (l : List α) (k : ℕ) (d : α) : α :=
  l.getD (l.length - k) d

/-- Python `buf[-k]` as an `Option`, `none` exactly when `k` is out of range
(an `IndexError` in Python). -/
def negIdxOpt (l : List α) (k : ℕ) : Option α :=
  if k ≤ l.length then l.get? (l.length - k) else none

/-- Spec's `last(n)`: the final `min(n, length)` elements, total on short
buffers. -/
def lastN (n : ℕ) (l : List α) : List α :=
  l.drop (l.length - n)

/-- Arithmetic mean of a list of rationals (`np.mean` on one column). -/
def listMean (l : List ℚ) : ℚ :=
  l.sum / l.length

/-- Population variance of a list of rationals (`np.var`, default ddof=0). -/
def listVar (l : List ℚ) : ℚ :=
  listMean (l.map (fun x => (x - listMean l) ^ 2))

/-- Columnwise `np.mean(buf.np(), axis=0)` over a buffer of `VA`. -/
def npMean (l : List VA) : VA :=
  ⟨listMean (l.map VA.v), listMean (l.map VA.a)⟩

/-- Columnwise `np.var(buf.np(), axis=0)` over a buffer of `VA`. -/
def npVar (l : List VA) : VA :=
  ⟨listVar (l.map VA.v), listVar (l.map VA.a)⟩

/-- Elementwise `np.sqrt` on a `VA`. -/
def vaSqrt (P : MathPrims) (x : VA) : VA :=
  ⟨P.sqrt x.v, P.sqrt x.a⟩

/-- Columnwise `np.std(buf.np(), axis=0)` (square root of the population
variance, per column). -/
def npStd (P : MathPrims) (l : List VA) : VA :=
  vaSqrt P (npVar l)

/-- `AnalysisConing.DELAY` from `config.py`: the 30-second warm-up. -/
def DELAY : ℚ := 30

/-- The `defaultdict(list)` mapping each `Activator` to its timeline of
event timestamps, as a total table over the closed key set. -/
structure Timelines where
  global_deviation : List ℚ
  local_deviation : List ℚ
  global_sigmoid_deviation : List ℚ
  local_sigmoid_deviation : List ℚ
  global_rapid_deprecation : List ℚ
  local_rapid_deprecation : List ℚ
deriving DecidableEq

/-- Read one key's timeline (`self._intersections[activator]`). -/
def Timelines.get (T : Timelines) : Activator → List ℚ
  | .global_deviation => T.global_deviation
  | .local_deviation => T.local_deviation
  | .global_sigmoid_deviation => T.global_sigmoid_deviation
  | .local_sigmoid_deviation => T.local_sigmoid_deviation
  | .global_rapid_deprecation => T.global_rapid_deprecation
  | .local_rapid_deprecation => T.local_rapid_deprecation

/-- Replace one key's timeline. -/
def Timelines.set (T : Timelines) (act : Activator) (l : List ℚ) : Timelines :=
  match act with
  | .global_deviation => { T with global_deviation := l }
  | .local_deviation => { T with local_deviation := l }
  | .global_sigmoid_deviation => { T with global_sigmoid_deviation := l }
  | .local_sigmoid_deviation => { T with local_sigmoid_deviation := l }
  | .global_rapid_deprecation => { T with global_rapid_deprecation := l }
  | .local_rapid_deprecation => { T with local_rapid_deprecation := l }

/-- The empty timeline table (a fresh `defaultdict(list)`). -/
def Timelines.empty : Timelines :=
  ⟨[], [], [], [], [], []⟩

theorem Timelines.get_set_same (T : Timelines) (act : Activator) (l : List ℚ) :
    (T.set act l).get act = l := by
  cases act <;> rfl

theorem Timelines.get_set_ne (T : Timelines) (act act2 : Activator) (l : List ℚ)
    (h : act2 ≠ act) : (T.set act l).get act2 = T.get act2 := by
  cases act <;> cases act2 <;> first | rfl | exact absurd rfl h

/-- The mutable state of `Analyst` (`src/analysis/analyst.py`):
constructor parameters plus one field per Python buffer.  The Python fields
`_va_moving_average` and `_derivative_moving_average` are buffers that
shadow the method names, so they carry a `_buf` suffix here. -/
structure AnalystState where
  sensitivity : ℚ
  moving_average_size : ℕ
  derivative_moving_average_size : ℕ
  v_series : List ℚ
  a_series : List ℚ
  va_buffer : List VA
  number_of_reads : ℕ
  intersections : Timelines
  va_moving_average_buf : List VA
  va_mean_local_buffer : List VA
  va_std_local_buffer : List VA
  va_mean_global_buffer : List VA
  va_variance_global_buffer : List VA
  va_std_global_buffer : List VA
  derivative_buffer : List VA
  derivative_moving_average_buf : List VA
  local_derivative_mean : List VA
  local_derivative_std : List VA
  global_derivative_mean : List VA
  global_derivative_variance : List VA
  global_derivative_std : List VA

/-- `Analyst.__init__`: empty buffers, zero reads, empty timelines. -/
def Analyst.init (sensitivity : ℚ)
    (moving_average_size derivative_moving_average_size : ℕ) : AnalystState :=
  { sensitivity := sensitivity
    moving_average_size := moving_average_size
    derivative_moving_average_size := derivative_moving_average_size
    v_series := []
    a_series := []
    va_buffer := []
    number_of_reads := 0
    intersections := Timelines.empty
    va_moving_average_buf := []
    va_mean_local_buffer := []
    va_std_local_buffer := []
    va_mean_global_buffer := []
    va_variance_global_buffer := []
    va_std_global_buffer := []
    derivative_buffer := []
    derivative_moving_average_buf := []
    local_derivative_mean := []
    local_derivative_std := []
    global_derivative_mean := []
    global_derivative_variance := []
    global_derivative_std := [] }

/-- `Analyst.va_moving_average`: mean of the last `window_size` raw readings. -/
def va_moving_average (st : AnalystState) (window_size : ℕ) : VA :=
  npMean (lastN window_size st.va_buffer)

/-- `Analyst.va_mean`: the incremental (global) mean update.  Reads
`_number_of_reads`, which at call time still counts only previously
consumed readings. -/
def va_mean (st : AnalystState) (mean : List VA) (va : VA) : VA :=
  if mean.isEmpty then va
  else (negIdx mean 1 0 * (st.number_of_reads : ℚ) + va) / ((st.number_of_reads : ℚ) + 1)

/-- `Analyst.va_variance`: the incremental (global) variance update, with
the fewer-than-2-mean-samples fallback `np.var(self._va_buffer.np(), axis=0)`
(note: always the raw buffer, also on the derivative track). -/
def va_variance (st : AnalystState) (variance mean : List VA) (va : VA) : VA :=
  if mean.length < 2 then npVar st.va_buffer
  else (negIdx variance 1 0 * (st.number_of_reads : ℚ)
      + (va - negIdx mean 1 0) * (va - negIdx mean 2 0)) / ((st.number_of_reads : ℚ) + 1)

/-- `Analyst.va_std`: `np.sqrt(variance[-1])`. -/
def va_std (P : MathPrims) (variance : List VA) : VA :=
  vaSqrt P (negIdx variance 1 0)

/-- `Analyst.sigmoid` on one scalar: `2 / (1 + exp((-x) * 2.2)) - 1`. -/
def sigmoid (P : MathPrims) (x : ℚ) : ℚ :=
  2 / (1 + P.exp (-x * 2.2)) - 1

/-- `Analyst.sigmoid` applied elementwise to a `VA`. -/
def vaSigmoid (P : MathPrims) (x : VA) : VA :=
  ⟨sigmoid P x.v, sigmoid P x.a⟩

/-- `Analyst.deviation_threshold`: `mean_local - std_buffer * sensitivity`,
elementwise over two equal-length buffers. -/
def deviation_threshold (st : AnalystState) (std_buffer : List VA) : List VA :=
  List.zipWith (fun (m s : VA) => m - s * st.sensitivity) st.va_mean_local_buffer std_buffer

/-- `Analyst.sigmoid_threshold`: the sigmoid of the same array. -/
def sigmoid_threshold (P : MathPrims) (st : AnalystState) (std_buffer : List VA) : List VA :=
  (List.zipWith (fun (m s : VA) => m - s * st.sensitivity) st.va_mean_local_buffer std_buffer).map
    (vaSigmoid P)

/-- `Analyst.derivative`: last raw reading minus the one before, `(0, 0)`
when fewer than 2 readings exist. -/
def derivative (st : AnalystState) : VA :=
  if st.va_buffer.length < 2 then ⟨0, 0⟩
  else negIdx st.va_buffer 1 0 - negIdx st.va_buffer 2 0

/-- `Analyst.derivative_moving_average`. -/
def derivative_moving_average (st : AnalystState) (window_size : ℕ) : VA :=
  npMean (lastN window_size st.derivative_buffer)

/-- `Analyst.derivative_threshold`:
`local_derivative_mean - std_buffer * sensitivity`. -/
def derivative_threshold (st : AnalystState) (std_buffer : List VA) : List VA :=
  List.zipWith (fun (m s : VA) => m - s * st.sensitivity) st.local_derivative_mean std_buffer

/-- `Analyst.is_intersection`: the data line crosses the control line from
above over the last two samples.  The Python `try/except IndexError` is the
`Option` fallback to `false`. -/
def is_intersection (values_1 values_2 : List ℚ) : Bool :=
  match negIdxOpt values_1 1, negIdxOpt values_2 1 with
  | some a1, some b1 =>
    if a1 < b1 then
      match negIdxOpt values_1 2, negIdxOpt values_2 2 with
      | some a2, some b2 => decide (a2 > b2)
      | _, _ => false
    else false
  | _, _ => false

/-- The inner `add_intersect` closure of `Analyst.find_intersections`:
append `t` to the activator's timeline when the crossing test passes,
gated (for `check_oddity = true`) on the timeline currently having odd
length. -/
def add_intersect (st : AnalystState) (data_line control_line : List ℚ)
    (act : Activator) (check_oddity : Bool) (t : ℚ) : AnalystState :=
  if !check_oddity || (st.intersections.get act).length % 2 == 1 then
    if is_intersection data_line control_line then
      { st with intersections :=
          st.intersections.set act (st.intersections.get act ++ [t]) }
    else st
  else st

/-- `Analyst.find_intersections`: skip everything before the warm-up delay,
otherwise run the six opening tests then the four parity-gated closing
tests, over the valence column of every line. -/
def find_intersections (P : MathPrims) (st : AnalystState) (t : ℚ) : AnalystState :=
  if t < DELAY then st
  else
    let deviation_line := st.va_moving_average_buf.map VA.v
    let derivative_line := st.derivative_moving_average_buf.map VA.v
    let global_v_std := (deviation_threshold st st.va_std_global_buffer).map VA.v
    let local_v_std := (deviation_threshold st st.va_std_local_buffer).map VA.v
    let s_global_v_std := (sigmoid_threshold P st st.va_std_global_buffer).map VA.v
    let s_local_v_std := (sigmoid_threshold P st st.va_std_local_buffer).map VA.v
    let global_v_dv_std := (derivative_threshold st st.global_derivative_std).map VA.v
    let local_v_dv_std := (derivative_threshold st st.local_derivative_std).map VA.v
    let st1 := add_intersect st deviation_line global_v_std .global_deviation false t
    let st2 := add_intersect st1 deviation_line local_v_std .local_deviation false t
    let st3 := add_intersect st2 deviation_line s_global_v_std .global_sigmoid_deviation false t
    let st4 := add_intersect st3 deviation_line s_local_v_std .local_sigmoid_deviation false t
    let st5 := add_intersect st4 derivative_line global_v_dv_std .global_rapid_deprecation false t
    let st6 := add_intersect st5 derivative_line local_v_dv_std .local_rapid_deprecation false t
    let st7 := add_intersect st6 global_v_std deviation_line .global_deviation true t
    let st8 := add_intersect st7 local_v_std deviation_line .local_deviation true t
    let st9 := add_intersect st8 s_global_v_std deviation_line .global_sigmoid_deviation true t
    add_intersect st9 s_local_v_std deviation_line .local_sigmoid_deviation true t

/-- Lines 66–96 of `Analyst.add_inference_result`: append the reading and
refresh every statistics buffer, then bump the read counter.  Each `let`
shadows the previous state, mirroring the sequential field mutations. -/
def ingest_statistics (P : MathPrims) (st : AnalystState) (valence_arousal : VA) :
    AnalystState :=
  let st := { st with
    v_series := st.v_series ++ [valence_arousal.v]
    a_series := st.a_series ++ [valence_arousal.a]
    va_buffer := st.va_buffer ++ [valence_arousal] }
  let st := { st with va_moving_average_buf :=
    st.va_moving_average_buf ++ [va_moving_average st st.moving_average_size] }
  let st := { st with va_mean_local_buffer :=
    st.va_mean_local_buffer ++ [npMean st.va_buffer] }
  let st := { st with va_std_local_buffer :=
    st.va_std_local_buffer ++ [npStd P st.va_buffer] }
  let st := { st with va_mean_global_buffer :=
    st.va_mean_global_buffer ++ [va_mean st st.va_mean_global_buffer valence_arousal] }
  let st := { st with va_variance_global_buffer :=
    st.va_variance_global_buffer ++
      [va_variance st st.va_variance_global_buffer st.va_mean_global_buffer valence_arousal] }
  let st := { st with va_std_global_buffer :=
    st.va_std_global_buffer ++ [va_std P st.va_variance_global_buffer] }
  let st := { st with derivative_buffer :=
    st.derivative_buffer ++ [derivative st] }
  let st := { st with derivative_moving_average_buf :=
    st.derivative_moving_average_buf ++
      [derivative_moving_average st st.derivative_moving_average_size] }
  let st := { st with local_derivative_mean :=
    st.local_derivative_mean ++ [npMean st.derivative_buffer] }
  let st := { st with local_derivative_std :=
    st.local_derivative_std ++ [npStd P st.derivative_buffer] }
  let st := { st with global_derivative_mean :=
    st.global_derivative_mean ++ [va_mean st st.global_derivative_mean (derivative st)] }
  let st := { st with global_derivative_variance :=
    st.global_derivative_variance ++
      [va_variance st st.global_derivative_variance st.global_derivative_mean (derivative st)] }
  let st := { st with global_derivative_std :=
    st.global_derivative_std ++ [va_std P st.global_derivative_variance] }
  { st with number_of_reads := st.number_of_reads + 1 }

/-- `Analyst.add_inference_result`: ingest the reading, then run crossing
detection at its timestamp. -/
def add_inference_result (P : MathPrims) (st : AnalystState) (valence_arousal : VA)
    (t : ℚ) : AnalystState :=
  find_intersections P (ingest_statistics P st valence_arousal) t

/-- Feed a whole session: one `add_inference_result` per (reading, time). -/
def run (P : MathPrims) (st : AnalystState) (inputs : List (VA × ℚ)) : AnalystState :=
  inputs.foldl (fun s p => add_inference_result P s p.1 p.2) st

/-- Fixed enumeration of the six activators (the Python `defaultdict`
iterates its keys in first-insertion order; any fixed order represents the
same timeline data). -/
def activators : List Activator :=
  [.global_deviation, .local_deviation, .global_sigmoid_deviation,
   .local_sigmoid_deviation, .global_rapid_deprecation, .local_rapid_deprecation]

/-- `Analyst.events`: the timelines flattened into (time, kind) pairs. -/
def events (st : AnalystState) : List (ℚ × Activator) :=
  activators.flatMap (fun act => (st.intersections.get act).map (fun t => (t, act)))

/-- Computable instantiation of the numpy primitives used for concrete
evaluations; the runs evaluated with it multiply every `sqrt`/`exp` output
by a zero sensitivity, so their events do not depend on this choice. -/
def idPrims : MathPrims :=
  ⟨fun x => x, fun x => x⟩

/-! ### Index-level description of the buffer contents

The following sequences describe, purely as functions of the list of
ingested readings, what each buffer of the Analyst holds after a run; the
characterisation theorem below proves the correspondence. -/

/-- The incremental ("global") mean sequence: `mean[0] = x[0]`,
`mean[n] = (mean[n-1]*n + x[n]) / (n+1)`. -/
def gmean (l : List VA) : ℕ → VA
  | 0 => l.getD 0 0
  | n + 1 => (gmean l n * ((n : ℚ) + 1) + l.getD (n + 1) 0) / ((n : ℚ) + 2)

/-- The incremental ("global") variance sequence: the value the bootstrap
fallback produces at index 0 (the population variance of a single point,
which is zero), then
`variance[n] = (variance[n-1]*n + (x[n]-mean[n])*(x[n]-mean[n-1])) / (n+1)`. -/
def gvar (l : List VA) : ℕ → VA
  | 0 => 0
  | n + 1 => (gvar l n * ((n : ℚ) + 1)
      + (l.getD (n + 1) 0 - gmean l (n + 1)) * (l.getD (n + 1) 0 - gmean l n)) / ((n : ℚ) + 2)

/-- The derivative series: `(0,0)` at index 0, `x[n] - x[n-1]` afterwards. -/
def derivSeq (l : List VA) : List VA :=
  (List.range l.length).map (fun n => if n = 0 then 0 else l.getD n 0 - l.getD (n - 1) 0)

/-- All fields of the state except the event timelines, as one tuple; used
to say that two states agree on every statistic. -/
def statsOf (st : AnalystState) :=
  (st.sensitivity, st.moving_average_size, st.derivative_moving_average_size,
   st.v_series, st.a_series, st.va_buffer, st.number_of_reads,
   st.va_moving_average_buf, st.va_mean_local_buffer, st.va_std_local_buffer,
   st.va_mean_global_buffer, st.va_variance_global_buffer, st.va_std_global_buffer,
   st.derivative_buffer, st.derivative_moving_average_buf,
   st.local_derivative_mean, st.local_derivative_std,
   st.global_derivative_mean, st.global_derivative_variance, st.global_derivative_std)

/-- What every buffer of the state holds after ingesting the readings `l`
(in order), for an Analyst constructed with the given parameters. -/
def RunSpec (P : MathPrims) (s : ℚ) (W Wd : ℕ) (l : List VA) (st : AnalystState) : Prop :=
  st.sensitivity = s ∧
  st.moving_average_size = W ∧
  st.derivative_moving_average_size = Wd ∧
  st.v_series = l.map VA.v ∧
  st.a_series = l.map VA.a ∧
  st.va_buffer = l ∧
  st.number_of_reads = l.length ∧
  st.va_moving_average_buf =
    (List.range l.length).map (fun n => npMean (lastN W (l.take (n + 1)))) ∧
  st.va_mean_local_buffer = (List.range l.length).map (fun n => npMean (l.take (n + 1))) ∧
  st.va_std_local_buffer = (List.range l.length).map (fun n => npStd P (l.take (n + 1))) ∧
  st.va_mean_global_buffer = (List.range l.length).map (gmean l) ∧
  st.va_variance_global_buffer = (List.range l.length).map (gvar l) ∧
  st.va_std_global_buffer = (List.range l.length).map (fun n => vaSqrt P (gvar l n)) ∧
  st.derivative_buffer = derivSeq l ∧
  st.derivative_moving_average_buf =
    (List.range l.length).map (fun n => npMean (lastN Wd ((derivSeq l).take (n + 1)))) ∧
  st.local_derivative_mean =
    (List.range l.length).map (fun n => npMean ((derivSeq l).take (n + 1))) ∧
  st.local_derivative_std =
    (List.range l.length).map (fun n => npStd P ((derivSeq l).take (n + 1))) ∧
  st.global_derivative_mean = (List.range l.length).map (gmean (derivSeq l)) ∧
  st.global_derivative_variance = (List.range l.length).map (gvar (derivSeq l)) ∧
  st.global_derivative_std =
    (List.range l.length).map (fun n => vaSqrt P (gvar (derivSeq l) n))

/-! ### Helper lemmas on lists and the spec sequences -/

theorem lastN_length (n : ℕ) (l : List α) : (lastN n l).length = min n l.length := by
  simp only [lastN, List.length_drop]
  omega

theorem negIdx_concat (xs : List α) (y d : α) : negIdx (xs ++ [y]) 1 d = y := by
  simp [negIdx, List.getD_append_right, Nat.le_refl]

theorem negIdx_concat_two (xs : List α) (y d : α) (h : xs ≠ []) :
    negIdx (xs ++ [y]) 2 d = negIdx xs 1 d := by
  have hx : 0 < xs.length := List.length_pos.mpr h
  simp only [negIdx, List.length_append, List.length_singleton]
  rw [List.getD_append _ _ _ _ (by omega)]
  congr 1

theorem getD_concat_length (xs : List α) (y d : α) : (xs ++ [y]).getD xs.length d = y := by
  simp [List.getD_append_right, Nat.le_refl]

theorem getD_range_map (f : ℕ → α) (n k : ℕ) (d : α) (h : k < n) :
    ((List.range n).map f).getD k d = f k := by
  rw [List.getD_eq_getElem?_getD, List.getElem?_map, List.getElem?_range h]
  rfl

theorem range_map_concat (f : ℕ → α) (n : ℕ) :
    (List.range (n + 1)).map f = (List.range n).map f ++ [f n] := by
  rw [List.range_succ, List.map_append, List.map_singleton]

theorem gmean_concat (l : List VA) (x : VA) (k : ℕ) (h : k < l.length) :
    gmean (l ++ [x]) k = gmean l k := by
  induction k with
  | zero =>
    simp only [gmean]
    rw [List.getD_append _ _ _ _ h]
  | succ n ih =>
    simp only [gmean]
    rw [ih (by omega), List.getD_append _ _ _ _ h]

theorem gvar_concat (l : List VA) (x : VA) (k : ℕ) (h : k < l.length) :
    gvar (l ++ [x]) k = gvar l k := by
  induction k with
  | zero => rfl
  | succ n ih =>
    simp only [gvar]
    rw [ih (by omega), List.getD_append _ _ _ _ h,
      gmean_concat _ _ _ h, gmean_concat _ _ _ (by omega)]

theorem derivSeq_length (l : List VA) : (derivSeq l).length = l.length := by
  simp [derivSeq]

theorem derivSeq_concat (l : List VA) (x : VA) :
    derivSeq (l ++ [x]) =
      derivSeq l ++ [if l.length = 0 then 0 else x - l.getD (l.length - 1) 0] := by
  simp only [derivSeq, List.length_append, List.length_singleton, range_map_concat]
  congr 1
  · apply List.map_congr_left
    intro k hk
    rw [List.mem_range] at hk
    by_cases h0 : k = 0
    · simp [h0]
    · simp only [h0, if_false]
      rw [List.getD_append _ _ _ _ hk, List.getD_append _ _ _ _ (by omega)]
  · by_cases h0 : l.length = 0
    · simp [h0]
    · simp only [h0, if_false]
      rw [getD_concat_length, List.getD_append _ _ _ _ (by omega)]

theorem take_concat_of_le (l : List α) (x : α) (n : ℕ) (h : n ≤ l.length) :
    (l ++ [x]).take n = l.take n :=
  List.take_append_of_le_length h

theorem npVar_singleton (x : VA) : npVar [x] = 0 := by
  simp [npVar, listVar, listMean]
  rfl

theorem take_concat_length (l : List α) (x : α) : (l ++ [x]).take (l.length + 1) = l ++ [x] := by
  have : l.length + 1 = (l ++ [x]).length := by simp
  rw [this, List.take_length]

/-! ### Structural lemmas: detection only touches the timelines -/

theorem add_intersect_shape (st : AnalystState) (d c : List ℚ) (act : Activator)
    (b : Bool) (t : ℚ) :
    ∃ f, add_intersect st d c act b t = { st with intersections := f } := by
  unfold add_intersect
  split
  · split
    · exact ⟨_, rfl⟩
    · exact ⟨st.intersections, rfl⟩
  · exact ⟨st.intersections, rfl⟩

theorem shape_trans {s1 s2 s3 : AnalystState}
    (h12 : ∃ f, s2 = { s1 with intersections := f })
    (h23 : ∃ f, s3 = { s2 with intersections := f }) :
    ∃ f, s3 = { s1 with intersections := f } := by
  obtain ⟨f, rfl⟩ := h12
  obtain ⟨g, rfl⟩ := h23
  exact ⟨g, rfl⟩

theorem find_intersections_shape (P : MathPrims) (st : AnalystState) (t : ℚ) :
    ∃ f, find_intersections P st t = { st with intersections := f } := by
  unfold find_intersections
  split
  · exact ⟨st.intersections, rfl⟩
  · refine shape_trans (shape_trans (shape_trans (shape_trans (shape_trans
      (shape_trans (shape_trans (shape_trans (shape_trans
        (add_intersect_shape _ _ _ _ _ _)
        (add_intersect_shape _ _ _ _ _ _)) (add_intersect_shape _ _ _ _ _ _))
        (add_intersect_shape _ _ _ _ _ _)) (add_intersect_shape _ _ _ _ _ _))
        (add_intersect_shape _ _ _ _ _ _)) (add_intersect_shape _ _ _ _ _ _))
        (add_intersect_shape _ _ _ _ _ _)) (add_intersect_shape _ _ _ _ _ _))
      (add_intersect_shape _ _ _ _ _ _)

theorem ingest_statistics_intersections (P : MathPrims) (st : AnalystState) (x : VA) :
    (ingest_statistics P st x).intersections = st.intersections := rfl

theorem run_concat (P : MathPrims) (st : AnalystState) (inputs : List (VA × ℚ))
    (x : VA) (t : ℚ) :
    run P st (inputs ++ [(x, t)]) = add_inference_result P (run P st inputs) x t := by
  simp [run, List.foldl_append]

/-! ### New-entry computations for the incremental estimators -/

theorem range_map_ext_concat (f g : ℕ → α) (n : ℕ) (hfg : ∀ k, k < n → g k = f k)
    (y : α) (hy : y = g n) :
    (List.range n).map f ++ [y] = (List.range (n + 1)).map g := by
  rw [range_map_concat]
  congr 1
  · apply List.map_congr_left
    intro k hk
    rw [List.mem_range] at hk
    exact (hfg k hk).symm
  · rw [hy]

theorem va_mean_entry (stX : AnalystState) (M : List VA) (x : VA)
    (hreads : stX.number_of_reads = M.length) :
    va_mean stX ((List.range M.length).map (gmean M)) x = gmean (M ++ [x]) M.length := by
  cases hM : M.length with
  | zero =>
    have hMnil : M = [] := List.length_eq_zero.mp hM
    subst hMnil
    simp [va_mean, gmean]
  | succ m =>
    rw [va_mean, if_neg (by simp [List.isEmpty_iff])]
    have h1 : negIdx ((List.range (m + 1)).map (gmean M)) 1 0 = gmean M m := by
      simp only [negIdx, List.length_map, List.length_range]
      exact getD_range_map _ _ _ _ (by omega)
    have h2 : (M ++ [x]).getD (m + 1) 0 = x := by
      rw [← hM]
      exact getD_concat_length M x 0
    rw [h1, hreads, hM]
    simp only [gmean]
    rw [gmean_concat _ _ _ (by omega), h2]
    have hc : ((m + 1 : ℕ) : ℚ) = (m : ℚ) + 1 := by push_cast; ring
    rw [hc]
    congr 1
    ring

theorem va_variance_entry (stX : AnalystState) (M : List VA) (x : VA)
    (hreads : stX.number_of_reads = M.length)
    (hfb : M.length = 0 → npVar stX.va_buffer = 0) :
    va_variance stX ((List.range M.length).map (gvar M))
        ((List.range M.length).map (gmean M) ++ [gmean (M ++ [x]) M.length]) x
      = gvar (M ++ [x]) M.length := by
  cases hM : M.length with
  | zero =>
    have hMnil : M = [] := List.length_eq_zero.mp hM
    subst hMnil
    rw [va_variance, if_pos (by simp)]
    exact hfb rfl
  | succ m =>
    rw [va_variance, if_neg (by
      simp only [List.length_append, List.length_map, List.length_range, List.length_singleton]
      omega)]
    have hvar1 : negIdx ((List.range (m + 1)).map (gvar M)) 1 0 = gvar M m := by
      simp only [negIdx, List.length_map, List.length_range]
      exact getD_range_map _ _ _ _ (by omega)
    have hmean1 : negIdx ((List.range (m + 1)).map (gmean M) ++ [gmean (M ++ [x]) (m + 1)]) 1 0
        = gmean (M ++ [x]) (m + 1) := negIdx_concat _ _ _
    have hmean2 : negIdx ((List.range (m + 1)).map (gmean M) ++ [gmean (M ++ [x]) (m + 1)]) 2 0
        = gmean (M ++ [x]) m := by
      rw [negIdx_concat_two _ _ _ (by simp)]
      simp only [negIdx, List.length_map, List.length_range]
      rw [getD_range_map _ _ _ _ (by omega)]
      exact (gmean_concat M x m (by omega)).symm
    rw [hvar1, hmean1, hmean2, hreads, hM]
    simp only [gvar]
    rw [gvar_concat _ _ _ (by omega)]
    have h2 : (M ++ [x]).getD (m + 1) 0 = x := by
      rw [← hM]
      exact getD_concat_length M x 0
    rw [h2]
    have hc : ((m + 1 : ℕ) : ℚ) = (m : ℚ) + 1 := by push_cast; ring
    rw [hc]
    congr 1
    ring

theorem va_std_entry (P : MathPrims) (varbuf : List VA) (y : VA) :
    va_std P (varbuf ++ [y]) = vaSqrt P y := by
  rw [va_std, negIdx_concat]

theorem derivative_entry (stA : AnalystState) (L : List VA) (x : VA)
    (h : stA.va_buffer = L ++ [x]) :
    derivative stA = if L.length = 0 then 0 else x - L.getD (L.length - 1) 0 := by
  rw [derivative, h]
  cases hL : L.length with
  | zero =>
    have hLnil : L = [] := List.length_eq_zero.mp hL
    subst hLnil
    simp
    rfl
  | succ m =>
    rw [if_neg (by simp only [List.length_append, List.length_singleton, hL]; omega),
      if_neg (by omega), negIdx_concat,
      negIdx_concat_two _ _ _ (by intro hnil; rw [hnil] at hL; simp at hL)]
    simp [negIdx, hL]

theorem va_variance_entry_mk (stX stY : AnalystState) (M : List VA) (x : VA)
    (hX : stX.number_of_reads = M.length) (hY : stY.number_of_reads = M.length)
    (hfb : M.length = 0 → npVar stX.va_buffer = 0) :
    va_variance stX ((List.range M.length).map (gvar M))
        ((List.range M.length).map (gmean M)
          ++ [va_mean stY ((List.range M.length).map (gmean M)) x]) x
      = gvar (M ++ [x]) M.length := by
  rw [va_mean_entry stY M x hY]
  exact va_variance_entry stX M x hX hfb

theorem va_mean_entry_d (stX : AnalystState) (L : List VA) (xx : VA)
    (hreads : stX.number_of_reads = L.length) :
    va_mean stX ((List.range L.length).map (gmean (derivSeq L))) xx
      = gmean (derivSeq L ++ [xx]) L.length := by
  have h := va_mean_entry stX (derivSeq L) xx (by rw [derivSeq_length]; exact hreads)
  rwa [derivSeq_length] at h

theorem va_variance_entry_mk_d (stX stY : AnalystState) (L : List VA) (x1 x2 : VA)
    (hX : stX.number_of_reads = L.length) (hY : stY.number_of_reads = L.length)
    (h12 : x1 = x2)
    (hfb : L.length = 0 → npVar stX.va_buffer = 0) :
    va_variance stX ((List.range L.length).map (gvar (derivSeq L)))
        ((List.range L.length).map (gmean (derivSeq L))
          ++ [va_mean stY ((List.range L.length).map (gmean (derivSeq L))) x1]) x2
      = gvar (derivSeq L ++ [x2]) L.length := by
  subst h12
  have h := va_variance_entry_mk stX stY (derivSeq L) x1
    (by rw [derivSeq_length]; exact hX) (by rw [derivSeq_length]; exact hY)
    (by rw [derivSeq_length]; exact hfb)
  rwa [derivSeq_length] at h

theorem deriv_take_full (L : List VA) (x : VA) (stD : AnalystState)
    (h : stD.va_buffer = L ++ [x]) :
    (derivSeq (L ++ [x])).take (L.length + 1) = derivSeq L ++ [derivative stD] := by
  rw [derivSeq_concat, ← derivative_entry stD L x h,
    show L.length + 1 = (derivSeq L ++ [derivative stD]).length from by simp [derivSeq_length]]
  exact List.take_length _

/-- One ingestion extends every statistics buffer by exactly the specified
next entry. -/
theorem ingest_spec (P : MathPrims) (s : ℚ) (W Wd : ℕ) (L : List VA) (x : VA)
    (st : AnalystState) (h : RunSpec P s W Wd L st) :
    RunSpec P s W Wd (L ++ [x]) (ingest_statistics P st x) := by
  unfold RunSpec at h ⊢
  obtain ⟨s0, W0, Wd0, vs0, as0, buf0, n0, int0, ma0, ml0, sl0, mg0, vg0, sg0, d0, dma0,
    dml0, dsl0, dmg0, dvg0, dsg0⟩ := st
  obtain ⟨hs, hW, hWd, hv, ha, hbuf, hreads, hma, hml, hsl, hmg, hvg, hsg, hd, hdma, hdml,
    hdsl, hdmg, hdvg, hdsg⟩ := h
  dsimp only at hs hW hWd hv ha hbuf hreads hma hml hsl hmg hvg hsg hd hdma hdml hdsl hdmg hdvg hdsg
  symm at hs hW hWd hbuf
  subst hs hW hWd hv ha hbuf hreads hma hml hsl hmg hvg hsg hd hdma hdml hdsl hdmg hdvg hdsg
  refine ⟨rfl, rfl, rfl, ?_, ?_, ?_, ?_, ?_, ?_, ?_, ?_, ?_, ?_, ?_, ?_, ?_, ?_, ?_, ?_, ?_⟩
  · dsimp only [ingest_statistics]
    simp
  · dsimp only [ingest_statistics]
    simp
  · rfl
  · dsimp only [ingest_statistics]
    simp
  · dsimp only [ingest_statistics, va_moving_average]
    simp only [List.length_append, List.length_singleton]
    refine range_map_ext_concat _ _ _ ?_ _ ?_
    · intro k hk
      rw [take_concat_of_le _ _ _ (by omega)]
    · rw [take_concat_length]
  · dsimp only [ingest_statistics]
    simp only [List.length_append, List.length_singleton]
    refine range_map_ext_concat _ _ _ ?_ _ ?_
    · intro k hk
      rw [take_concat_of_le _ _ _ (by omega)]
    · rw [take_concat_length]
  · dsimp only [ingest_statistics]
    simp only [List.length_append, List.length_singleton]
    refine range_map_ext_concat _ _ _ ?_ _ ?_
    · intro k hk
      rw [take_concat_of_le _ _ _ (by omega)]
    · rw [take_concat_length]
  · dsimp only [ingest_statistics]
    simp only [List.length_append, List.length_singleton]
    refine range_map_ext_concat _ _ _ ?_ _ ?_
    · intro k hk
      exact gmean_concat _ _ _ hk
    · refine va_mean_entry _ _ _ ?_
      rfl
  · dsimp only [ingest_statistics]
    simp only [List.length_append, List.length_singleton]
    refine range_map_ext_concat _ _ _ ?_ _ ?_
    · intro k hk
      exact gvar_concat _ _ _ hk
    · refine va_variance_entry_mk _ _ _ _ ?_ ?_ ?_
      · rfl
      · rfl
      · intro h0
        obtain rfl := List.length_eq_zero.mp h0
        exact npVar_singleton x
  · dsimp only [ingest_statistics]
    simp only [List.length_append, List.length_singleton]
    refine range_map_ext_concat _ _ _ ?_ _ ?_
    · intro k hk
      exact congrArg (vaSqrt P) (gvar_concat _ _ _ hk)
    · rw [va_std_entry]
      refine congrArg (vaSqrt P) (va_variance_entry_mk _ _ _ _ ?_ ?_ ?_)
      · rfl
      · rfl
      · intro h0
        obtain rfl := List.length_eq_zero.mp h0
        exact npVar_singleton x
  · dsimp only [ingest_statistics]
    rw [derivSeq_concat]
    refine congrArg (fun z => derivSeq L ++ [z]) (derivative_entry _ L x ?_)
    rfl
  · dsimp only [ingest_statistics, derivative_moving_average]
    simp only [List.length_append, List.length_singleton]
    refine range_map_ext_concat _ _ _ ?_ _ ?_
    · intro k hk
      rw [derivSeq_concat, take_concat_of_le _ _ _ (by rw [derivSeq_length]; omega)]
    · refine (congrArg (fun M => npMean (lastN Wd M)) (deriv_take_full L x _ ?_)).symm
      rfl
  · dsimp only [ingest_statistics]
    simp only [List.length_append, List.length_singleton]
    refine range_map_ext_concat _ _ _ ?_ _ ?_
    · intro k hk
      rw [derivSeq_concat, take_concat_of_le _ _ _ (by rw [derivSeq_length]; omega)]
    · refine (congrArg npMean (deriv_take_full L x _ ?_)).symm
      rfl
  · dsimp only [ingest_statistics]
    simp only [List.length_append, List.length_singleton]
    refine range_map_ext_concat _ _ _ ?_ _ ?_
    · intro k hk
      rw [derivSeq_concat, take_concat_of_le _ _ _ (by rw [derivSeq_length]; omega)]
    · refine (congrArg (npStd P) (deriv_take_full L x _ ?_)).symm
      rfl
  · dsimp only [ingest_statistics]
    simp only [List.length_append, List.length_singleton]
    refine range_map_ext_concat _ _ _ ?_ _ ?_
    · intro k hk
      rw [derivSeq_concat]
      exact gmean_concat _ _ _ (by rw [derivSeq_length]; omega)
    · refine (va_mean_entry_d _ _ _ ?_).trans ?_
      · rfl
      · refine congrArg (fun M => gmean M L.length) ?_
        rw [derivSeq_concat]
        refine congrArg (fun z => derivSeq L ++ [z]) (derivative_entry _ L x ?_)
        rfl
  · dsimp only [ingest_statistics]
    simp only [List.length_append, List.length_singleton]
    refine range_map_ext_concat _ _ _ ?_ _ ?_
    · intro k hk
      rw [derivSeq_concat]
      exact gvar_concat _ _ _ (by rw [derivSeq_length]; omega)
    · refine (va_variance_entry_mk_d _ _ L _ _ ?_ ?_ ?_ ?_).trans ?_
      · rfl
      · rfl
      · rfl
      · intro h0
        obtain rfl := List.length_eq_zero.mp h0
        exact npVar_singleton x
      · refine congrArg (fun M => gvar M L.length) ?_
        rw [derivSeq_concat]
        refine congrArg (fun z => derivSeq L ++ [z]) (derivative_entry _ L x ?_)
        rfl
  · dsimp only [ingest_statistics]
    simp only [List.length_append, List.length_singleton]
    refine range_map_ext_concat _ _ _ ?_ _ ?_
    · intro k hk
      rw [derivSeq_concat]
      exact congrArg (vaSqrt P) (gvar_concat _ _ _ (by rw [derivSeq_length]; omega))
    · rw [va_std_entry]
      refine congrArg (vaSqrt P) ?_
      refine (va_variance_entry_mk_d _ _ L _ _ ?_ ?_ ?_ ?_).trans ?_
      · rfl
      · rfl
      · rfl
      · intro h0
        obtain rfl := List.length_eq_zero.mp h0
        exact npVar_singleton x
      · refine congrArg (fun M => gvar M L.length) ?_
        rw [derivSeq_concat]
        refine congrArg (fun z => derivSeq L ++ [z]) (derivative_entry _ L x ?_)
        rfl

/-- Characterisation of every statistics buffer after a whole run: the
state of an Analyst that ingested the readings of `inputs` (at any
timestamps) holds exactly the sequences described by `RunSpec`. -/
theorem run_spec (P : MathPrims) (s : ℚ) (W Wd : ℕ) (inputs : List (VA × ℚ)) :
    RunSpec P s W Wd (inputs.map Prod.fst) (run P (Analyst.init s W Wd) inputs) := by
  induction inputs using List.reverseRecOn with
  | nil =>
    exact ⟨rfl, rfl, rfl, rfl, rfl, rfl, rfl, rfl, rfl, rfl, rfl, rfl, rfl, rfl, rfl, rfl,
      rfl, rfl, rfl, rfl⟩
  | append_singleton inp p ih =>
    obtain ⟨x, t⟩ := p
    rw [run_concat]
    unfold add_inference_result
    obtain ⟨F, hF⟩ :=
      find_intersections_shape P (ingest_statistics P (run P (Analyst.init s W Wd) inp) x) t
    rw [hF]
    have h2 := ingest_spec P s W Wd (inp.map Prod.fst) x _ ih
    simp only [List.map_append, List.map_cons, List.map_nil]
    unfold RunSpec at h2 ⊢
    obtain ⟨a1, a2, a3, a4, a5, a6, a7, a8, a9, a10, a11, a12, a13, a14, a15, a16, a17,
      a18, a19, a20⟩ := h2
    exact ⟨a1, a2, a3, a4, a5, a6, a7, a8, a9, a10, a11, a12, a13, a14, a15, a16, a17,
      a18, a19, a20⟩

/-- A session: a fresh Analyst constructed with the given parameters that
then ingests `inputs` in order. -/
def runInit (P : MathPrims) (s : ℚ) (W Wd : ℕ) (inputs : List (VA × ℚ)) : AnalystState :=
  run P (Analyst.init s W Wd) inputs

theorem gmean_rec (l : List VA) (n : ℕ) (h1 : 1 ≤ n) :
    gmean l n = (gmean l (n - 1) * (n : ℚ) + l.getD n 0) / ((n : ℚ) + 1) := by
  obtain ⟨m, rfl⟩ : ∃ m, n = m + 1 := ⟨n - 1, by omega⟩
  simp only [gmean, Nat.add_sub_cancel]
  push_cast
  congr 1
  ring

theorem gvar_rec (l : List VA) (n : ℕ) (h1 : 1 ≤ n) :
    gvar l n = (gvar l (n - 1) * (n : ℚ)
      + (l.getD n 0 - gmean l n) * (l.getD n 0 - gmean l (n - 1))) / ((n : ℚ) + 1) := by
  obtain ⟨m, rfl⟩ : ∃ m, n = m + 1 := ⟨n - 1, by omega⟩
  simp only [gvar, Nat.add_sub_cancel]
  push_cast
  congr 1
  ring

/-- C1: for every ingestion sequence and both the raw and derivative
signals, the incremental ("global") estimator satisfies, elementwise over
(valence, arousal): `mean[0] = x[0]`; for `1 ≤ n < length`,
`mean[n] = (mean[n-1]*n + x[n])/(n+1)` and
`variance[n] = (variance[n-1]*n + (x[n]-mean[n])*(x[n]-mean[n-1]))/(n+1)`;
and `std[n] = sqrt(variance[n])` at every step, where `n` counts the
previously consumed readings. -/
theorem C1_incremental_estimator (P : MathPrims) (s : ℚ) (W Wd : ℕ)
    (inputs : List (VA × ℚ)) (st : AnalystState) (hst : st = runInit P s W Wd inputs)
    (n : ℕ) (hn : n < inputs.length) :
    (st.va_mean_global_buffer.getD 0 0 = (inputs.map Prod.fst).getD 0 0 ∧
     st.global_derivative_mean.getD 0 0 = (derivSeq (inputs.map Prod.fst)).getD 0 0) ∧
    (st.va_std_global_buffer.getD n 0 = vaSqrt P (st.va_variance_global_buffer.getD n 0) ∧
     st.global_derivative_std.getD n 0 = vaSqrt P (st.global_derivative_variance.getD n 0)) ∧
    (1 ≤ n →
      st.va_mean_global_buffer.getD n 0
        = (st.va_mean_global_buffer.getD (n - 1) 0 * (n : ℚ)
            + (inputs.map Prod.fst).getD n 0) / ((n : ℚ) + 1) ∧
      st.va_variance_global_buffer.getD n 0
        = (st.va_variance_global_buffer.getD (n - 1) 0 * (n : ℚ)
            + ((inputs.map Prod.fst).getD n 0 - st.va_mean_global_buffer.getD n 0)
              * ((inputs.map Prod.fst).getD n 0 - st.va_mean_global_buffer.getD (n - 1) 0))
            / ((n : ℚ) + 1) ∧
      st.global_derivative_mean.getD n 0
        = (st.global_derivative_mean.getD (n - 1) 0 * (n : ℚ)
            + (derivSeq (inputs.map Prod.fst)).getD n 0) / ((n : ℚ) + 1) ∧
      st.global_derivative_variance.getD n 0
        = (st.global_derivative_variance.getD (n - 1) 0 * (n : ℚ)
            + ((derivSeq (inputs.map Prod.fst)).getD n 0 - st.global_derivative_mean.getD n 0)
              * ((derivSeq (inputs.map Prod.fst)).getD n 0
                  - st.global_derivative_mean.getD (n - 1) 0)) / ((n : ℚ) + 1)) := by
  subst hst
  have H := run_spec P s W Wd inputs
  unfold RunSpec at H
  obtain ⟨-, -, -, -, -, -, -, -, -, -, hmg, hvg, hsg, -, -, -, -, hdmg, hdvg, hdsg⟩ := H
  have hlen : (inputs.map Prod.fst).length = inputs.length := by simp
  unfold runInit
  rw [hmg, hvg, hsg, hdmg, hdvg, hdsg]
  refine ⟨⟨?_, ?_⟩, ⟨?_, ?_⟩, ?_⟩
  · rw [getD_range_map _ _ _ _ (by omega)]
    rfl
  · rw [getD_range_map _ _ _ _ (by omega)]
    rfl
  · rw [getD_range_map _ _ _ _ (by omega), getD_range_map _ _ _ _ (by omega)]
  · rw [getD_range_map _ _ _ _ (by omega), getD_range_map _ _ _ _ (by omega)]
  · intro h1
    refine ⟨?_, ?_, ?_, ?_⟩
    · rw [getD_range_map _ _ _ _ (by omega), getD_range_map _ _ _ _ (by omega)]
      exact gmean_rec _ _ h1
    · rw [getD_range_map _ _ _ _ (by omega), getD_range_map _ _ _ _ (by omega),
        getD_range_map _ _ _ _ (by omega), getD_range_map _ _ _ _ (by omega)]
      exact gvar_rec _ _ h1
    · rw [getD_range_map _ _ _ _ (by omega), getD_range_map _ _ _ _ (by omega)]
      exact gmean_rec _ _ h1
    · rw [getD_range_map _ _ _ _ (by omega), getD_range_map _ _ _ _ (by omega),
        getD_range_map _ _ _ _ (by omega), getD_range_map _ _ _ _ (by omega)]
      exact gvar_rec _ _ h1

/-- Witness for C1: a 2-reading session where the incremental mean after the
second reading is the elementwise average of the two readings. -/
theorem C1_incremental_estimator_witness :
    (runInit idPrims 1 2 2 [(⟨1, 2⟩, 0), (⟨3, 5⟩, 1)]).va_mean_global_buffer.getD 1 0
      = (⟨2, 7/2⟩ : VA) := by
  have h := C1_incremental_estimator idPrims 1 2 2 [(⟨1, 2⟩, 0), (⟨3, 5⟩, 1)] _ rfl 1
    (by decide)
  have h2 := (h.2.2 (by decide)).1
  rw [h2, h.1.1]
  norm_num [VA.ext_iff']

theorem negIdxOpt_some (l : List α) (k : ℕ) (d : α) (h2 : k ≤ l.length) (h0 : 0 < k) :
    negIdxOpt l k = some (negIdx l k d) := by
  have hlt : l.length - k < l.length := by omega
  simp [negIdxOpt, if_pos h2, negIdx, List.get?_eq_getElem?, List.getElem?_eq_getElem hlt,
    List.getD_eq_getElem?_getD]

theorem negIdxOpt_none (l : List α) (k : ℕ) (h : l.length < k) :
    negIdxOpt l k = none := by
  have hn : ¬ k ≤ l.length := by omega
  simp only [negIdxOpt, if_neg hn]

theorem is_intersection_iff (v1 v2 : List ℚ) :
    is_intersection v1 v2 = true ↔
      2 ≤ v1.length ∧ 2 ≤ v2.length ∧
        negIdx v2 2 0 < negIdx v1 2 0 ∧ negIdx v1 1 0 < negIdx v2 1 0 := by
  unfold is_intersection
  by_cases h1 : 1 ≤ v1.length
  · by_cases h2 : 1 ≤ v2.length
    · rw [negIdxOpt_some v1 1 0 h1 (by omega), negIdxOpt_some v2 1 0 h2 (by omega)]
      by_cases h3 : negIdx v1 1 0 < negIdx v2 1 0
      · by_cases h4 : 2 ≤ v1.length
        · by_cases h5 : 2 ≤ v2.length
          · rw [negIdxOpt_some v1 2 0 h4 (by omega), negIdxOpt_some v2 2 0 h5 (by omega)]
            simp [h3, h4, h5, GT.gt]
          · rw [negIdxOpt_none v2 2 (by omega)]
            simp [h3, h5]
        · rw [negIdxOpt_none v1 2 (by omega)]
          simp [h3, h4]
      · simp [h3]
    · rw [negIdxOpt_some v1 1 0 h1 (by omega), negIdxOpt_none v2 1 (by omega)]
      constructor
      · intro h
        simp at h
      · rintro ⟨-, c2, -⟩
        omega
  · rw [negIdxOpt_none v1 1 (by omega)]
    constructor
    · intro h
      simp at h
    · rintro ⟨c1, -⟩
      omega

/-- C4: a crossing-from-above is detected exactly when both lines carry at
least two samples, the data line was strictly above the control line at the
previous sample and is strictly below it at the last sample; with fewer
samples the test reports `false` (the caught IndexError path). -/
theorem C4_crossing_iff (v1 v2 : List ℚ) :
    is_intersection v1 v2 = true ↔
      2 ≤ v1.length ∧ 2 ≤ v2.length ∧
        negIdx v2 2 0 < negIdx v1 2 0 ∧ negIdx v1 1 0 < negIdx v2 1 0 :=
  is_intersection_iff v1 v2

/-- C7: the derivative series is `(0,0)` at step 0 and
`reading[n] - reading[n-1]` for every later step; the derivative of a
buffer with fewer than 2 readings is the defined zero fallback (total, no
error path). -/
theorem C7_derivative (P : MathPrims) (s : ℚ) (W Wd : ℕ) (inputs : List (VA × ℚ))
    (st : AnalystState) (hst : st = runInit P s W Wd inputs) :
    (0 < inputs.length → st.derivative_buffer.getD 0 0 = 0) ∧
    (∀ n, 1 ≤ n → n < inputs.length →
      st.derivative_buffer.getD n 0
        = (inputs.map Prod.fst).getD n 0 - (inputs.map Prod.fst).getD (n - 1) 0) ∧
    (∀ st2 : AnalystState, st2.va_buffer.length < 2 → derivative st2 = 0) := by
  subst hst
  have H := run_spec P s W Wd inputs
  unfold RunSpec at H
  obtain ⟨-, -, -, -, -, -, -, -, -, -, -, -, -, hd, -, -, -, -, -, -⟩ := H
  have hlen : (inputs.map Prod.fst).length = inputs.length := by simp
  unfold runInit
  rw [hd]
  refine ⟨?_, ?_, ?_⟩
  · intro h0
    rw [show derivSeq (inputs.map Prod.fst)
        = (List.range (inputs.map Prod.fst).length).map
            (fun n => if n = 0 then 0
              else (inputs.map Prod.fst).getD n 0 - (inputs.map Prod.fst).getD (n - 1) 0)
      from rfl]
    rw [getD_range_map _ _ _ _ (by omega)]
    simp
  · intro n h1 h2
    rw [show derivSeq (inputs.map Prod.fst)
        = (List.range (inputs.map Prod.fst).length).map
            (fun n => if n = 0 then 0
              else (inputs.map Prod.fst).getD n 0 - (inputs.map Prod.fst).getD (n - 1) 0)
      from rfl]
    rw [getD_range_map _ _ _ _ (by omega)]
    rw [if_neg (by omega)]
  · intro st2 h2
    rw [derivative, if_pos h2]
    rfl

/-- Witness for C7: a 2-reading session whose recorded derivative at step 1
is the elementwise difference of the readings. -/
theorem C7_derivative_witness :
    (runInit idPrims 1 2 2 [(⟨1, 2⟩, 0), (⟨4, 1⟩, 1)]).derivative_buffer.getD 1 0
      = (⟨3, -1⟩ : VA) := by
  have h := (C7_derivative idPrims 1 2 2 [(⟨1, 2⟩, 0), (⟨4, 1⟩, 1)] _ rfl).2.1 1
    (by decide) (by decide)
  rw [h]
  norm_num [VA.ext_iff']

/-- C8: at every step `n`, the recorded moving average of the raw signal is
the arithmetic mean of the last `min(n+1, W)` raw readings (including the
step-`n` reading), and the derivative moving average likewise with its own
window `Wd` over the derivative series; `lastN` is total on short buffers. -/
theorem C8_moving_average (P : MathPrims) (s : ℚ) (W Wd : ℕ) (inputs : List (VA × ℚ))
    (st : AnalystState) (hst : st = runInit P s W Wd inputs)
    (n : ℕ) (hn : n < inputs.length) :
    st.va_moving_average_buf.getD n 0
      = npMean (lastN W ((inputs.map Prod.fst).take (n + 1))) ∧
    (lastN W ((inputs.map Prod.fst).take (n + 1))).length = min (n + 1) W ∧
    st.derivative_moving_average_buf.getD n 0
      = npMean (lastN Wd ((derivSeq (inputs.map Prod.fst)).take (n + 1))) ∧
    (lastN Wd ((derivSeq (inputs.map Prod.fst)).take (n + 1))).length = min (n + 1) Wd := by
  subst hst
  have H := run_spec P s W Wd inputs
  unfold RunSpec at H
  obtain ⟨-, -, -, -, -, -, -, hma, -, -, -, -, -, -, hdma, -, -, -, -, -⟩ := H
  have hlen : (inputs.map Prod.fst).length = inputs.length := by simp
  have hdlen : (derivSeq (inputs.map Prod.fst)).length = inputs.length := by
    rw [derivSeq_length, hlen]
  unfold runInit
  rw [hma, hdma]
  refine ⟨?_, ?_, ?_, ?_⟩
  · rw [getD_range_map _ _ _ _ (by omega)]
  · rw [lastN_length, List.length_take]
    omega
  · rw [getD_range_map _ _ _ _ (by omega)]
  · rw [lastN_length, List.length_take]
    omega

/-- Witness for C8: with window 2, the moving average at step 2 of the
readings 1, 3, 5 (valence) is 4, the mean of the last two readings. -/
theorem C8_moving_average_witness :
    (runInit idPrims 1 2 3 [(⟨1, 0⟩, 0), (⟨3, 0⟩, 1), (⟨5, 0⟩, 2)]).va_moving_average_buf.getD
        2 0 = (⟨4, 0⟩ : VA) := by
  have h := (C8_moving_average idPrims 1 2 3 [(⟨1, 0⟩, 0), (⟨3, 0⟩, 1), (⟨5, 0⟩, 2)] _ rfl 2
    (by decide)).1
  rw [h]
  norm_num [lastN, npMean, listMean, VA.ext_iff']

/-- C5: at the first ingestion (the only step where fewer than 2 derivative
mean samples exist), the bootstrapped derivative variance equals the
population variance of the derivative history so far, the single value
`(0,0)` — hence it is `(0,0)`. -/
theorem C5_derivative_variance_bootstrap (P : MathPrims) (s : ℚ) (W Wd : ℕ)
    (inputs : List (VA × ℚ)) (st : AnalystState) (hst : st = runInit P s W Wd inputs)
    (h0 : 0 < inputs.length) :
    st.global_derivative_variance.getD 0 0
      = npVar ((derivSeq (inputs.map Prod.fst)).take 1) ∧
    st.global_derivative_variance.getD 0 0 = 0 := by
  subst hst
  have H := run_spec P s W Wd inputs
  unfold RunSpec at H
  obtain ⟨-, -, -, -, -, -, -, -, -, -, -, -, -, -, -, -, -, -, hdvg, -⟩ := H
  have hlen : (inputs.map Prod.fst).length = inputs.length := by simp
  have htake : (derivSeq (inputs.map Prod.fst)).take 1 = [(0 : VA)] := by
    obtain ⟨p, ps, rfl⟩ : ∃ p ps, inputs = p :: ps := by
      cases inputs with
      | nil => simp at h0
      | cons p ps => exact ⟨p, ps, rfl⟩
    simp [derivSeq, List.range_succ_eq_map]
  unfold runInit
  rw [hdvg, getD_range_map _ _ _ _ (by omega), htake, npVar_singleton]
  exact ⟨rfl, rfl⟩

/-- Witness for C5: concrete one-reading session. -/
theorem C5_derivative_variance_bootstrap_witness :
    (runInit idPrims 1 2 2 [(⟨3, 4⟩, 0)]).global_derivative_variance.getD 0 0 = (0 : VA) :=
  (C5_derivative_variance_bootstrap idPrims 1 2 2 [(⟨3, 4⟩, 0)] _ rfl (by decide)).2

/-- C6: both deviation thresholds and the derivative threshold take their
mean term from the cumulative-recompute ("local") mean of their signal,
whatever std buffer is supplied, computing elementwise
`mean - std_source * sensitivity`; the sigmoid variants apply
`sigmoid(x) = 2/(1+exp(-2.2 x)) - 1` to exactly that array. -/
theorem C6_threshold_curves (P : MathPrims) (s : ℚ) (W Wd : ℕ) (inputs : List (VA × ℚ))
    (st : AnalystState) (hst : st = runInit P s W Wd inputs) (b : List VA) :
    st.va_mean_local_buffer
      = (List.range inputs.length).map (fun n => npMean ((inputs.map Prod.fst).take (n + 1))) ∧
    st.local_derivative_mean
      = (List.range inputs.length).map
          (fun n => npMean ((derivSeq (inputs.map Prod.fst)).take (n + 1))) ∧
    deviation_threshold st b
      = List.zipWith (fun (m sd : VA) => m - sd * s) st.va_mean_local_buffer b ∧
    sigmoid_threshold P st b = (deviation_threshold st b).map (vaSigmoid P) ∧
    derivative_threshold st b
      = List.zipWith (fun (m sd : VA) => m - sd * s) st.local_derivative_mean b ∧
    (∀ q : ℚ, sigmoid P q = 2 / (1 + P.exp (-(2.2 * q))) - 1) := by
  subst hst
  have H := run_spec P s W Wd inputs
  unfold RunSpec at H
  obtain ⟨hsens, -, -, -, -, -, -, -, hml, -, -, -, -, -, -, hdml, -, -, -, -⟩ := H
  have hlen : (inputs.map Prod.fst).length = inputs.length := by simp
  unfold runInit
  refine ⟨?_, ?_, ?_, rfl, ?_, ?_⟩
  · rw [hml, hlen]
  · rw [hdml, hlen]
  · rw [deviation_threshold, hsens]
  · rw [derivative_threshold, hsens]
  · intro q
    rw [sigmoid, show -q * 2.2 = -(2.2 * q) from by ring]

/-- Witness for C6: the sigmoid formula evaluated with the identity in the
exponential slot at 1. -/
theorem C6_threshold_curves_witness : sigmoid idPrims 1 = -8/3 := by
  have h := (C6_threshold_curves idPrims 1 2 2 [] _ rfl []).2.2.2.2.2 1
  rw [h]
  norm_num [idPrims]


theorem statsOf_find_intersections (P : MathPrims) (st : AnalystState) (t : ℚ) :
    statsOf (find_intersections P st t) = statsOf st := by
  obtain ⟨f, hf⟩ := find_intersections_shape P st t
  rw [hf]
  rfl

/-- C3: an ingestion whose timestamp is below the 30-second warm-up delay
appends no event at all, yet the reading is fully ingested: the resulting
state is exactly the statistics update, and all non-timeline fields agree
with those of the same ingestion at any other timestamp. -/
theorem C3_warmup_suppression (P : MathPrims) (st : AnalystState) (x : VA) (t : ℚ)
    (ht : t < 30) :
    (add_inference_result P st x t).intersections = st.intersections ∧
    add_inference_result P st x t = ingest_statistics P st x ∧
    (∀ t2 : ℚ, statsOf (add_inference_result P st x t) = statsOf (add_inference_result P st x t2)) := by
  have heq : add_inference_result P st x t = ingest_statistics P st x := by
    unfold add_inference_result find_intersections
    rw [if_pos (show t < DELAY from ht)]
  refine ⟨?_, heq, ?_⟩
  · rw [heq]
    rfl
  · intro t2
    rw [heq]
    unfold add_inference_result
    rw [statsOf_find_intersections]

/-- Witness for C3: the first reading of a fresh session at time 0 leaves
every timeline empty. -/
theorem C3_warmup_suppression_witness :
    (add_inference_result idPrims (Analyst.init 1 2 2) ⟨1, 1⟩ 0).intersections
      = Timelines.empty := by
  have h := (C3_warmup_suppression idPrims (Analyst.init 1 2 2) ⟨1, 1⟩ 0 (by norm_num)).1
  rw [h]
  rfl

/-! ### A closed form for one detection pass, per event kind -/

/-- The data line each `Activator` is tested on (the valence column of the
relevant moving-average buffer), as wired in `find_intersections`. -/
def dataLine (st : AnalystState) : Activator → List ℚ
  | .global_rapid_deprecation => st.derivative_moving_average_buf.map VA.v
  | .local_rapid_deprecation => st.derivative_moving_average_buf.map VA.v
  | _ => st.va_moving_average_buf.map VA.v

/-- The control line each `Activator` is tested against (the valence column
of the corresponding threshold curve), as wired in `find_intersections`. -/
def controlLine (P : MathPrims) (st : AnalystState) : Activator → List ℚ
  | .global_deviation => (deviation_threshold st st.va_std_global_buffer).map VA.v
  | .local_deviation => (deviation_threshold st st.va_std_local_buffer).map VA.v
  | .global_sigmoid_deviation => (sigmoid_threshold P st st.va_std_global_buffer).map VA.v
  | .local_sigmoid_deviation => (sigmoid_threshold P st st.va_std_local_buffer).map VA.v
  | .global_rapid_deprecation => (derivative_threshold st st.global_derivative_std).map VA.v
  | .local_rapid_deprecation => (derivative_threshold st st.local_derivative_std).map VA.v

/-- The four interval-style kinds get the parity-gated reversed test; the
two point-style kinds do not. -/
def isInterval : Activator → Bool
  | .global_rapid_deprecation => false
  | .local_rapid_deprecation => false
  | _ => true

theorem add_intersect_get_ne (st : AnalystState) (d c : List ℚ) (act : Activator)
    (b : Bool) (t : ℚ) (act2 : Activator) (h : act2 ≠ act) :
    (add_intersect st d c act b t).intersections.get act2 = st.intersections.get act2 := by
  unfold add_intersect
  split
  · split
    · exact Timelines.get_set_ne _ _ _ _ h
    · rfl
  · rfl

theorem add_intersect_get_same (st : AnalystState) (d c : List ℚ) (act : Activator)
    (b : Bool) (t : ℚ) :
    (add_intersect st d c act b t).intersections.get act =
      if ((!b || (st.intersections.get act).length % 2 == 1) = true ∧ is_intersection d c = true)
        then st.intersections.get act ++ [t] else st.intersections.get act := by
  unfold add_intersect
  by_cases h1 : (!b || (st.intersections.get act).length % 2 == 1) = true
  · rw [if_pos h1]
    by_cases h2 : is_intersection d c = true
    · rw [if_pos h2, if_pos ⟨h1, h2⟩, Timelines.get_set_same]
    · rw [if_neg h2, if_neg (by tauto)]
  · rw [if_neg h1, if_neg (by tauto)]

theorem get_add_intersect (st : AnalystState) (d c : List ℚ) (act : Activator)
    (b : Bool) (t : ℚ) (act2 : Activator) :
    (add_intersect st d c act b t).intersections.get act2 =
      if act2 = act
        then (if ((!b || (st.intersections.get act).length % 2 == 1) = true
              ∧ is_intersection d c = true)
          then st.intersections.get act ++ [t] else st.intersections.get act)
        else st.intersections.get act2 := by
  by_cases haa : act2 = act
  · subst haa
    rw [if_pos rfl]
    exact add_intersect_get_same st d c act2 b t
  · rw [if_neg haa]
    exact add_intersect_get_ne st d c act b t act2 haa

/-- One active detection pass, closed form per kind: the opening test
(ungated) may append `t`; then, for interval kinds only, the reversed test
appends `t` when the live timeline length is odd and the control line
crossed the data line from above. -/
theorem find_intersections_get (P : MathPrims) (st : AnalystState) (t : ℚ)
    (act : Activator) (h : ¬ t < DELAY) :
    (find_intersections P st t).intersections.get act =
      (if is_intersection (dataLine st act) (controlLine P st act)
          then st.intersections.get act ++ [t] else st.intersections.get act)
        ++
      (if (isInterval act = true
            ∧ ((if is_intersection (dataLine st act) (controlLine P st act)
                then st.intersections.get act ++ [t]
                else st.intersections.get act).length % 2 == 1) = true
            ∧ is_intersection (controlLine P st act) (dataLine st act) = true)
          then [t] else []) := by
  cases act <;>
    simp [find_intersections, if_neg h, get_add_intersect, dataLine, controlLine,
      isInterval] <;>
    (repeat' split) <;>
    simp_all


/-- The two directed crossing tests over the same pair of lines can never
both succeed: they need opposite strict comparisons at the last sample. -/
theorem is_intersection_asymm (v1 v2 : List ℚ) (h : is_intersection v1 v2 = true) :
    is_intersection v2 v1 = false := by
  cases hb : is_intersection v2 v1
  · rfl
  · exfalso
    obtain ⟨-, -, -, h4⟩ := (is_intersection_iff v1 v2).mp h
    obtain ⟨-, -, -, h4'⟩ := (is_intersection_iff v2 v1).mp hb
    exact lt_asymm h4 h4'

/-- C10: one ingestion appends at most one timestamp per EventKind — the
opening and the parity-gated closing test over the same two lines are
mutually exclusive, and point-style kinds are tested once. -/
theorem C10_at_most_one_append (P : MathPrims) (st : AnalystState) (x : VA) (t : ℚ)
    (act : Activator) :
    ((add_inference_result P st x t).intersections.get act).length
      ≤ (st.intersections.get act).length + 1 ∧
    (∀ v1 v2 : List ℚ, is_intersection v1 v2 = true → is_intersection v2 v1 = false) := by
  refine ⟨?_, is_intersection_asymm⟩
  unfold add_inference_result
  by_cases h : t < DELAY
  · unfold find_intersections
    rw [if_pos h]
    rw [show (ingest_statistics P st x).intersections = st.intersections from rfl]
    omega
  · rw [find_intersections_get P _ t act h]
    rw [show (ingest_statistics P st x).intersections = st.intersections from rfl]
    by_cases hop : is_intersection (dataLine (ingest_statistics P st x) act)
        (controlLine P (ingest_statistics P st x) act) = true
    · rw [if_pos hop]
      have hcl := is_intersection_asymm _ _ hop
      split
      · rename_i hcond
        obtain ⟨-, -, hc⟩ := hcond
        rw [hcl] at hc
        simp at hc
      · simp
    · rw [if_neg hop]
      split <;> simp

/-- Witness for C10: concretely, on the counterexample-style session no kind
ever gets two timestamps in one ingestion (first post-warm-up step of a
fresh session: still zero or one timestamps per kind). -/
theorem C10_at_most_one_append_witness :
    ((add_inference_result idPrims (Analyst.init 0 1 1) ⟨0, 0⟩ 30).intersections.get
        Activator.local_deviation).length
      ≤ ((Analyst.init 0 1 1).intersections.get Activator.local_deviation).length + 1 :=
  (C10_at_most_one_append idPrims (Analyst.init 0 1 1) ⟨0, 0⟩ 30
    Activator.local_deviation).1


/-! ### Valence-only dependence of the detection lines -/

theorem Timelines.ext_of_get (T1 T2 : Timelines) (h : ∀ act, T1.get act = T2.get act) :
    T1 = T2 := by
  obtain ⟨a1, a2, a3, a4, a5, a6⟩ := T1
  obtain ⟨b1, b2, b3, b4, b5, b6⟩ := T2
  have e1 := h .global_deviation
  have e2 := h .local_deviation
  have e3 := h .global_sigmoid_deviation
  have e4 := h .local_sigmoid_deviation
  have e5 := h .global_rapid_deprecation
  have e6 := h .local_rapid_deprecation
  simp only [Timelines.get] at e1 e2 e3 e4 e5 e6
  subst e1 e2 e3 e4 e5 e6
  rfl

theorem getD_v_congr (L1 L2 : List VA) (hv : L1.map VA.v = L2.map VA.v) (n : ℕ) :
    (L1.getD n 0).v = (L2.getD n 0).v := by
  have h1 : (L1.map VA.v).getD n (VA.v 0) = VA.v (L1.getD n 0) := List.getD_map L1 0 VA.v
  have h2 : (L2.map VA.v).getD n (VA.v 0) = VA.v (L2.getD n 0) := List.getD_map L2 0 VA.v
  show VA.v (L1.getD n 0) = VA.v (L2.getD n 0)
  rw [← h1, ← h2, hv]

theorem gmean_v_congr (L1 L2 : List VA) (hv : L1.map VA.v = L2.map VA.v) (k : ℕ) :
    (gmean L1 k).v = (gmean L2 k).v := by
  induction k with
  | zero =>
    simp only [gmean]
    exact getD_v_congr L1 L2 hv 0
  | succ n ih =>
    simp only [gmean, VA.div_v, VA.add_v, VA.smul_v]
    rw [ih, getD_v_congr L1 L2 hv (n + 1)]

theorem gvar_v_congr (L1 L2 : List VA) (hv : L1.map VA.v = L2.map VA.v) (k : ℕ) :
    (gvar L1 k).v = (gvar L2 k).v := by
  induction k with
  | zero => rfl
  | succ n ih =>
    simp only [gvar, VA.div_v, VA.add_v, VA.smul_v, VA.mul_v, VA.sub_v]
    rw [ih, getD_v_congr L1 L2 hv (n + 1), gmean_v_congr L1 L2 hv (n + 1),
      gmean_v_congr L1 L2 hv n]

theorem map_v_lastN (n : ℕ) (l : List VA) :
    (lastN n l).map VA.v = lastN n (l.map VA.v) := by
  simp [lastN, List.map_drop]

theorem derivSeq_map_v_congr (L1 L2 : List VA) (hv : L1.map VA.v = L2.map VA.v) :
    (derivSeq L1).map VA.v = (derivSeq L2).map VA.v := by
  have hlen : L1.length = L2.length := by simpa using congrArg List.length hv
  simp only [derivSeq, List.map_map, hlen]
  apply List.map_congr_left
  intro k hk
  simp only [Function.comp]
  by_cases h0 : k = 0
  · simp [h0]
  · simp only [h0, if_false, VA.sub_v]
    rw [getD_v_congr L1 L2 hv k, getD_v_congr L1 L2 hv (k - 1)]

theorem map_v_zipWith_threshold (c : ℚ) (A B : List VA) :
    (List.zipWith (fun (m sd : VA) => m - sd * c) A B).map VA.v
      = List.zipWith (fun mv sv => mv - sv * c) (A.map VA.v) (B.map VA.v) := by
  induction A generalizing B with
  | nil => simp
  | cons a as ih =>
    cases B with
    | nil => simp
    | cons b bs => simp [ih]

theorem map_v_vaSigmoid (P : MathPrims) (X : List VA) :
    (X.map (vaSigmoid P)).map VA.v = (X.map VA.v).map (sigmoid P) := by
  simp only [List.map_map]
  apply List.map_congr_left
  intro x hx
  rfl

/-- Every valence column the detection pass reads agrees between two
runs whose raw valence histories agree (elementwise over both tracks). -/
theorem buffers_v_congr (P : MathPrims) (s : ℚ) (W Wd : ℕ) (L1 L2 : List VA)
    (st1 st2 : AnalystState)
    (h1 : RunSpec P s W Wd L1 st1) (h2 : RunSpec P s W Wd L2 st2)
    (hv : L1.map VA.v = L2.map VA.v) :
    st1.va_moving_average_buf.map VA.v = st2.va_moving_average_buf.map VA.v ∧
    st1.derivative_moving_average_buf.map VA.v = st2.derivative_moving_average_buf.map VA.v ∧
    st1.va_mean_local_buffer.map VA.v = st2.va_mean_local_buffer.map VA.v ∧
    st1.va_std_local_buffer.map VA.v = st2.va_std_local_buffer.map VA.v ∧
    st1.va_std_global_buffer.map VA.v = st2.va_std_global_buffer.map VA.v ∧
    st1.local_derivative_mean.map VA.v = st2.local_derivative_mean.map VA.v ∧
    st1.local_derivative_std.map VA.v = st2.local_derivative_std.map VA.v ∧
    st1.global_derivative_std.map VA.v = st2.global_derivative_std.map VA.v ∧
    st1.sensitivity = st2.sensitivity := by
  have hlen : L1.length = L2.length := by simpa using congrArg List.length hv
  have hdv := derivSeq_map_v_congr L1 L2 hv
  unfold RunSpec at h1 h2
  obtain ⟨hs1, -, -, -, -, -, -, hma1, hml1, hsl1, -, -, hsg1, -, hdma1, hdml1, hdsl1, -, -,
    hdsg1⟩ := h1
  obtain ⟨hs2, -, -, -, -, -, -, hma2, hml2, hsl2, -, -, hsg2, -, hdma2, hdml2, hdsl2, -, -,
    hdsg2⟩ := h2
  refine ⟨?_, ?_, ?_, ?_, ?_, ?_, ?_, ?_, by rw [hs1, hs2]⟩
  · rw [hma1, hma2, hlen]
    simp only [List.map_map]
    apply List.map_congr_left
    intro k hk
    show listMean ((lastN W (L1.take (k + 1))).map VA.v)
        = listMean ((lastN W (L2.take (k + 1))).map VA.v)
    simp only [map_v_lastN, List.map_take, hv]
  · rw [hdma1, hdma2, hlen]
    simp only [List.map_map]
    apply List.map_congr_left
    intro k hk
    show listMean ((lastN Wd ((derivSeq L1).take (k + 1))).map VA.v)
        = listMean ((lastN Wd ((derivSeq L2).take (k + 1))).map VA.v)
    simp only [map_v_lastN, List.map_take, hdv]
  · rw [hml1, hml2, hlen]
    simp only [List.map_map]
    apply List.map_congr_left
    intro k hk
    show listMean ((L1.take (k + 1)).map VA.v) = listMean ((L2.take (k + 1)).map VA.v)
    simp only [List.map_take, hv]
  · rw [hsl1, hsl2, hlen]
    simp only [List.map_map]
    apply List.map_congr_left
    intro k hk
    show P.sqrt (listVar ((L1.take (k + 1)).map VA.v))
        = P.sqrt (listVar ((L2.take (k + 1)).map VA.v))
    simp only [List.map_take, hv]
  · rw [hsg1, hsg2, hlen]
    simp only [List.map_map]
    apply List.map_congr_left
    intro k hk
    show P.sqrt ((gvar L1 k).v) = P.sqrt ((gvar L2 k).v)
    rw [gvar_v_congr L1 L2 hv k]
  · rw [hdml1, hdml2, hlen]
    simp only [List.map_map]
    apply List.map_congr_left
    intro k hk
    show listMean (((derivSeq L1).take (k + 1)).map VA.v)
        = listMean (((derivSeq L2).take (k + 1)).map VA.v)
    simp only [List.map_take, hdv]
  · rw [hdsl1, hdsl2, hlen]
    simp only [List.map_map]
    apply List.map_congr_left
    intro k hk
    show P.sqrt (listVar (((derivSeq L1).take (k + 1)).map VA.v))
        = P.sqrt (listVar (((derivSeq L2).take (k + 1)).map VA.v))
    simp only [List.map_take, hdv]
  · rw [hdsg1, hdsg2, hlen]
    simp only [List.map_map]
    apply List.map_congr_left
    intro k hk
    show P.sqrt ((gvar (derivSeq L1) k).v) = P.sqrt ((gvar (derivSeq L2) k).v)
    rw [gvar_v_congr (derivSeq L1) (derivSeq L2) hdv k]

theorem dataLine_congr (P : MathPrims) (s : ℚ) (W Wd : ℕ) (L1 L2 : List VA)
    (st1 st2 : AnalystState)
    (h1 : RunSpec P s W Wd L1 st1) (h2 : RunSpec P s W Wd L2 st2)
    (hv : L1.map VA.v = L2.map VA.v) (act : Activator) :
    dataLine st1 act = dataLine st2 act := by
  obtain ⟨hma, hdma, -⟩ := buffers_v_congr P s W Wd L1 L2 st1 st2 h1 h2 hv
  cases act <;> simp only [dataLine] <;> first | exact hma | exact hdma

theorem controlLine_congr (P : MathPrims) (s : ℚ) (W Wd : ℕ) (L1 L2 : List VA)
    (st1 st2 : AnalystState)
    (h1 : RunSpec P s W Wd L1 st1) (h2 : RunSpec P s W Wd L2 st2)
    (hv : L1.map VA.v = L2.map VA.v) (act : Activator) :
    controlLine P st1 act = controlLine P st2 act := by
  obtain ⟨-, -, hml, hsl, hsg, hdml, hdsl, hdsg, hsens⟩ :=
    buffers_v_congr P s W Wd L1 L2 st1 st2 h1 h2 hv
  cases act <;>
    simp only [controlLine, deviation_threshold, sigmoid_threshold, derivative_threshold,
      map_v_vaSigmoid, map_v_zipWith_threshold, hsens, hml, hsl, hsg, hdml, hdsl, hdsg]

/-- Two sessions with the same parameters, timestamps and valence history
produce identical timeline tables: detection never reads arousal. -/
theorem runInit_intersections_congr (P : MathPrims) (s : ℚ) (W Wd : ℕ)
    (inputs1 : List (VA × ℚ)) :
    ∀ inputs2 : List (VA × ℚ),
      inputs1.map (fun p => (p.1.v, p.2)) = inputs2.map (fun p => (p.1.v, p.2)) →
      (runInit P s W Wd inputs1).intersections = (runInit P s W Wd inputs2).intersections := by
  induction inputs1 using List.reverseRecOn with
  | nil =>
    intro inputs2 hv
    cases inputs2 with
    | nil => rfl
    | cons q qs => simp at hv
  | append_singleton l1 p1 ih =>
    intro inputs2 hv
    cases inputs2 using List.reverseRecOn with
    | nil =>
      rw [List.map_append] at hv
      simp at hv
    | append_singleton l2 p2 =>
      rw [List.map_append, List.map_append, List.map_singleton, List.map_singleton] at hv
      obtain ⟨hv1, hv2⟩ := List.append_inj' hv rfl
      obtain ⟨hpv, hpt⟩ : p1.1.v = p2.1.v ∧ p1.2 = p2.2 := by
        simpa using hv2
      have hI := ih l2 hv1
      have hs1 := ingest_spec P s W Wd (l1.map Prod.fst) p1.1 _ (run_spec P s W Wd l1)
      have hs2 := ingest_spec P s W Wd (l2.map Prod.fst) p2.1 _ (run_spec P s W Wd l2)
      have hvv : ((l1.map Prod.fst) ++ [p1.1]).map VA.v
          = ((l2.map Prod.fst) ++ [p2.1]).map VA.v := by
        simp only [List.map_append, List.map_singleton, List.map_map]
        rw [hpv]
        have h3 := congrArg (List.map Prod.fst) hv1
        simp only [List.map_map] at h3
        congr 1
      unfold runInit
      rw [run_concat, run_concat]
      unfold add_inference_result
      rw [hpt]
      have hga : ∀ act2 : Activator,
          (ingest_statistics P (run P (Analyst.init s W Wd) l1) p1.1).intersections.get act2
            = (ingest_statistics P (run P (Analyst.init s W Wd) l2) p2.1).intersections.get
                act2 := by
        intro act2
        rw [show (ingest_statistics P (run P (Analyst.init s W Wd) l1) p1.1).intersections
            = (run P (Analyst.init s W Wd) l1).intersections from rfl,
          show (ingest_statistics P (run P (Analyst.init s W Wd) l2) p2.1).intersections
            = (run P (Analyst.init s W Wd) l2).intersections from rfl]
        unfold runInit at hI
        rw [hI]
      by_cases hd : p2.2 < DELAY
      · unfold find_intersections
        rw [if_pos hd, if_pos hd]
        apply Timelines.ext_of_get
        exact hga
      · apply Timelines.ext_of_get
        intro act
        rw [find_intersections_get P _ _ act hd, find_intersections_get P _ _ act hd,
          dataLine_congr P s W Wd _ _ _ _ hs1 hs2 hvv act,
          controlLine_congr P s W Wd _ _ _ _ hs1 hs2 hvv act,
          hga act]

/-- C9: two ingestion sequences with identical timestamps and valence
components but arbitrary arousal components produce identical event
timelines and an identical flattened `events` list — event detection reads
only the valence column of every data and control line. -/
theorem C9_arousal_independence (P : MathPrims) (s : ℚ) (W Wd : ℕ)
    (inputs1 inputs2 : List (VA × ℚ))
    (hv : inputs1.map (fun p => (p.1.v, p.2)) = inputs2.map (fun p => (p.1.v, p.2))) :
    (∀ act, (runInit P s W Wd inputs1).intersections.get act
      = (runInit P s W Wd inputs2).intersections.get act) ∧
    events (runInit P s W Wd inputs1) = events (runInit P s W Wd inputs2) := by
  have h := runInit_intersections_congr P s W Wd inputs1 inputs2 hv
  constructor
  · intro act
    rw [h]
  · unfold events
    rw [h]

/-- Witness for C9: two singleton sessions that differ only in arousal have
identical (empty, pre-warm-up aside) event lists. -/
theorem C9_arousal_independence_witness :
    events (runInit idPrims 1 1 1 [(⟨1, 5⟩, 30)])
      = events (runInit idPrims 1 1 1 [(⟨1, -3⟩, 30)]) :=
  (C9_arousal_independence idPrims 1 1 1 [(⟨1, 5⟩, 30)] [(⟨1, -3⟩, 30)] rfl).2

/-! ### A tag-recording mirror of the detection pass

To reason about which of the two crossing tests appended each timestamp,
the plain state is paired with a ghost table recording, for every appended
timestamp, the `check_oddity` flag of the appending call: `false` for the
straight (opening) test, `true` for the reversed parity-gated (closing)
test.  The mirror performs exactly the same computation as
`find_intersections`; `add_intersect_g_fst` and friends prove it. -/

/-- Ghost timelines: each appended timestamp together with the flag of the
call that appended it (`true` = reversed/closing test). -/
structure GTimelines where
  global_deviation : List (ℚ × Bool)
  local_deviation : List (ℚ × Bool)
  global_sigmoid_deviation : List (ℚ × Bool)
  local_sigmoid_deviation : List (ℚ × Bool)
  global_rapid_deprecation : List (ℚ × Bool)
  local_rapid_deprecation : List (ℚ × Bool)
deriving DecidableEq

def GTimelines.get (T : GTimelines) : Activator → List (ℚ × Bool)
  | .global_deviation => T.global_deviation
  | .local_deviation => T.local_deviation
  | .global_sigmoid_deviation => T.global_sigmoid_deviation
  | .local_sigmoid_deviation => T.local_sigmoid_deviation
  | .global_rapid_deprecation => T.global_rapid_deprecation
  | .local_rapid_deprecation => T.local_rapid_deprecation

def GTimelines.set (T : GTimelines) (act : Activator) (l : List (ℚ × Bool)) : GTimelines :=
  match act with
  | .global_deviation => { T with global_deviation := l }
  | .local_deviation => { T with local_deviation := l }
  | .global_sigmoid_deviation => { T with global_sigmoid_deviation := l }
  | .local_sigmoid_deviation => { T with local_sigmoid_deviation := l }
  | .global_rapid_deprecation => { T with global_rapid_deprecation := l }
  | .local_rapid_deprecation => { T with local_rapid_deprecation := l }

def GTimelines.empty : GTimelines :=
  ⟨[], [], [], [], [], []⟩

theorem GTimelines.get_set_self (T : GTimelines) (act : Activator) (l : List (ℚ × Bool)) :
    (T.set act l).get act = l := by
  cases act <;> rfl

theorem GTimelines.get_set_other (T : GTimelines) (act act2 : Activator) (l : List (ℚ × Bool))
    (h : act2 ≠ act) : (T.set act l).get act2 = T.get act2 := by
  cases act <;> cases act2 <;> first | rfl | exact absurd rfl h

/-- `add_intersect` with the ghost record of the appending call's flag. -/
def add_intersect_g (st : AnalystState) (g : GTimelines) (data_line control_line : List ℚ)
    (act : Activator) (check_oddity : Bool) (t : ℚ) : AnalystState × GTimelines :=
  if !check_oddity || (st.intersections.get act).length % 2 == 1 then
    if is_intersection data_line control_line then
      ({ st with intersections :=
          st.intersections.set act (st.intersections.get act ++ [t]) },
        g.set act (g.get act ++ [(t, check_oddity)]))
    else (st, g)
  else (st, g)

/-- `find_intersections` with the ghost record. -/
def find_intersections_g (P : MathPrims) (st : AnalystState) (g : GTimelines) (t : ℚ) :
    AnalystState × GTimelines :=
  if t < DELAY then (st, g)
  else
    let deviation_line := st.va_moving_average_buf.map VA.v
    let derivative_line := st.derivative_moving_average_buf.map VA.v
    let global_v_std := (deviation_threshold st st.va_std_global_buffer).map VA.v
    let local_v_std := (deviation_threshold st st.va_std_local_buffer).map VA.v
    let s_global_v_std := (sigmoid_threshold P st st.va_std_global_buffer).map VA.v
    let s_local_v_std := (sigmoid_threshold P st st.va_std_local_buffer).map VA.v
    let global_v_dv_std := (derivative_threshold st st.global_derivative_std).map VA.v
    let local_v_dv_std := (derivative_threshold st st.local_derivative_std).map VA.v
    let r1 := add_intersect_g st g deviation_line global_v_std .global_deviation false t
    let r2 := add_intersect_g r1.1 r1.2 deviation_line local_v_std .local_deviation false t
    let r3 := add_intersect_g r2.1 r2.2 deviation_line s_global_v_std
      .global_sigmoid_deviation false t
    let r4 := add_intersect_g r3.1 r3.2 deviation_line s_local_v_std
      .local_sigmoid_deviation false t
    let r5 := add_intersect_g r4.1 r4.2 derivative_line global_v_dv_std
      .global_rapid_deprecation false t
    let r6 := add_intersect_g r5.1 r5.2 derivative_line local_v_dv_std
      .local_rapid_deprecation false t
    let r7 := add_intersect_g r6.1 r6.2 global_v_std deviation_line .global_deviation true t
    let r8 := add_intersect_g r7.1 r7.2 local_v_std deviation_line .local_deviation true t
    let r9 := add_intersect_g r8.1 r8.2 s_global_v_std deviation_line
      .global_sigmoid_deviation true t
    add_intersect_g r9.1 r9.2 s_local_v_std deviation_line .local_sigmoid_deviation true t

/-- `add_inference_result` with the ghost record. -/
def add_inference_result_g (P : MathPrims) (sg : AnalystState × GTimelines) (x : VA)
    (t : ℚ) : AnalystState × GTimelines :=
  find_intersections_g P (ingest_statistics P sg.1 x) sg.2 t

/-- A whole session with the ghost record. -/
def run_g (P : MathPrims) (sg : AnalystState × GTimelines) (inputs : List (VA × ℚ)) :
    AnalystState × GTimelines :=
  inputs.foldl (fun s p => add_inference_result_g P s p.1 p.2) sg

theorem add_intersect_g_fst (st : AnalystState) (g : GTimelines) (d c : List ℚ)
    (act : Activator) (b : Bool) (t : ℚ) :
    (add_intersect_g st g d c act b t).1 = add_intersect st d c act b t := by
  unfold add_intersect_g add_intersect
  split
  · split <;> rfl
  · rfl

theorem find_intersections_g_fst (P : MathPrims) (st : AnalystState) (g : GTimelines)
    (t : ℚ) :
    (find_intersections_g P st g t).1 = find_intersections P st t := by
  unfold find_intersections_g find_intersections
  split
  · rfl
  · simp only [add_intersect_g_fst]

theorem run_g_fst (P : MathPrims) (inputs : List (VA × ℚ)) :
    ∀ sg : AnalystState × GTimelines, (run_g P sg inputs).1 = run P sg.1 inputs := by
  induction inputs with
  | nil => intro sg; rfl
  | cons p ps ih =>
    intro sg
    show (run_g P (add_inference_result_g P sg p.1 p.2) ps).1
      = run P (add_inference_result P sg.1 p.1 p.2) ps
    rw [ih]
    unfold add_inference_result_g add_inference_result
    rw [find_intersections_g_fst]

/-- The plain timelines are the timestamp projection of the ghost record. -/
def GSync (st : AnalystState) (g : GTimelines) : Prop :=
  ∀ act, (g.get act).map Prod.fst = st.intersections.get act

/-- Every entry tagged as appended by the reversed (closing) test sits at an
odd index of its timeline. -/
def GClosesOdd (g : GTimelines) : Prop :=
  ∀ act i τ, (g.get act).get? i = some (τ, true) → i % 2 = 1

theorem add_intersect_g_inv (st : AnalystState) (g : GTimelines) (d c : List ℚ)
    (act : Activator) (b : Bool) (t : ℚ) (h : GSync st g ∧ GClosesOdd g) :
    GSync (add_intersect_g st g d c act b t).1 (add_intersect_g st g d c act b t).2 ∧
      GClosesOdd (add_intersect_g st g d c act b t).2 := by
  obtain ⟨hsync, hodd⟩ := h
  unfold add_intersect_g
  split
  · rename_i hguard
    split
    · constructor
      · intro act2
        by_cases ha : act2 = act
        · subst ha
          show ((g.set act2 (g.get act2 ++ [(t, b)])).get act2).map Prod.fst
            = (st.intersections.set act2 (st.intersections.get act2 ++ [t])).get act2
          rw [GTimelines.get_set_self, Timelines.get_set_same, List.map_append, hsync act2]
          rfl
        · show ((g.set act (g.get act ++ [(t, b)])).get act2).map Prod.fst
            = (st.intersections.set act (st.intersections.get act ++ [t])).get act2
          rw [GTimelines.get_set_other _ _ _ _ ha, Timelines.get_set_ne _ _ _ _ ha]
          exact hsync act2
      · intro act2 i τ hi
        by_cases ha : act2 = act
        · subst ha
          rw [GTimelines.get_set_self] at hi
          rcases Nat.lt_or_ge i (g.get act2).length with hlt | hge
          · rw [List.get?_append hlt] at hi
            exact hodd act2 i τ hi
          · obtain ⟨hlt2, -⟩ := List.get?_eq_some.mp hi
            have hlen : i = (g.get act2).length := by
              simp only [List.length_append, List.length_singleton] at hlt2
              omega
            rw [hlen, List.get?_append_right (Nat.le_refl _)] at hi
            simp only [Nat.sub_self, List.get?_cons_zero, Option.some.injEq,
              Prod.mk.injEq] at hi
            obtain ⟨-, hb⟩ := hi
            subst hb
            simp only [Bool.not_true, Bool.false_or] at hguard
            have hlensync : (g.get act2).length = (st.intersections.get act2).length := by
              rw [← hsync act2, List.length_map]
            rw [hlen, hlensync]
            simpa using hguard
        · rw [GTimelines.get_set_other _ _ _ _ ha] at hi
          exact hodd act2 i τ hi
    · exact ⟨hsync, hodd⟩
  · exact ⟨hsync, hodd⟩

theorem find_intersections_g_inv (P : MathPrims) (st : AnalystState) (g : GTimelines)
    (t : ℚ) (h : GSync st g ∧ GClosesOdd g) :
    GSync (find_intersections_g P st g t).1 (find_intersections_g P st g t).2 ∧
      GClosesOdd (find_intersections_g P st g t).2 := by
  unfold find_intersections_g
  split
  · exact h
  · exact add_intersect_g_inv _ _ _ _ _ _ _ (add_intersect_g_inv _ _ _ _ _ _ _
      (add_intersect_g_inv _ _ _ _ _ _ _ (add_intersect_g_inv _ _ _ _ _ _ _
        (add_intersect_g_inv _ _ _ _ _ _ _ (add_intersect_g_inv _ _ _ _ _ _ _
          (add_intersect_g_inv _ _ _ _ _ _ _ (add_intersect_g_inv _ _ _ _ _ _ _
            (add_intersect_g_inv _ _ _ _ _ _ _ (add_intersect_g_inv _ _ _ _ _ _ _ h)))))))))

theorem run_g_inv (P : MathPrims) (inputs : List (VA × ℚ)) :
    ∀ sg : AnalystState × GTimelines, GSync sg.1 sg.2 ∧ GClosesOdd sg.2 →
      GSync (run_g P sg inputs).1 (run_g P sg inputs).2 ∧
        GClosesOdd (run_g P sg inputs).2 := by
  induction inputs with
  | nil => intro sg h; exact h
  | cons p ps ih =>
    intro sg h
    show GSync (run_g P (add_inference_result_g P sg p.1 p.2) ps).1
        (run_g P (add_inference_result_g P sg p.1 p.2) ps).2 ∧
      GClosesOdd (run_g P (add_inference_result_g P sg p.1 p.2) ps).2
    apply ih
    unfold add_inference_result_g
    apply find_intersections_g_inv
    refine ⟨?_, h.2⟩
    intro act
    rw [show (ingest_statistics P sg.1 p.1).intersections = sg.1.intersections from rfl]
    exact h.1 act

theorem gsync_init (s : ℚ) (W Wd : ℕ) :
    GSync (Analyst.init s W Wd) GTimelines.empty ∧ GClosesOdd GTimelines.empty := by
  constructor
  · intro act
    cases act <;> rfl
  · intro act i τ hi
    cases act <;> simp [GTimelines.get, GTimelines.empty] at hi

/-! ### The alternation counterexample

A session with sensitivity 0 and window sizes 1: the data line for the
deviation kinds is the raw valence and the control line is its cumulative
mean.  The valence sequence 0, 2, -2, 0, 5, -7 (arousal 0, times 30..35)
opens an interval at t=32, then returns above the control line by touching
it exactly at t=33 (no strict crossing, so the closing test never fires)
and appends a second opening timestamp at t=35. -/
def cexInputs : List (VA × ℚ) :=
  [(⟨0, 0⟩, 30), (⟨2, 0⟩, 31), (⟨-2, 0⟩, 32), (⟨0, 0⟩, 33), (⟨5, 0⟩, 34), (⟨-7, 0⟩, 35)]

/-- State and ghost record of the counterexample session after reading 1. -/
def cexS1 : AnalystState × GTimelines :=
  (⟨0, 1, 1,
        [0],
        [0],
        [⟨0, 0⟩], 1,
        ⟨[], [], [], [], [], []⟩,
        [⟨0, 0⟩],
        [⟨0, 0⟩],
        [⟨0, 0⟩],
        [⟨0, 0⟩],
        [⟨0, 0⟩],
        [⟨0, 0⟩],
        [⟨0, 0⟩],
        [⟨0, 0⟩],
        [⟨0, 0⟩],
        [⟨0, 0⟩],
        [⟨0, 0⟩],
        [⟨0, 0⟩],
        [⟨0, 0⟩]⟩,
       ⟨[], [], [], [], [], []⟩)

set_option maxHeartbeats 2000000 in
theorem cex_step1 :
    add_inference_result_g idPrims (Analyst.init 0 1 1, GTimelines.empty) ⟨0, 0⟩ 30 = cexS1 := by
  norm_num [cexS1,
      add_inference_result_g, find_intersections_g, add_intersect_g, ingest_statistics,
      is_intersection, va_moving_average, va_mean, va_variance, va_std, derivative,
      derivative_moving_average, deviation_threshold, sigmoid_threshold,
      derivative_threshold, sigmoid, vaSigmoid, vaSqrt, npMean, npVar, npStd, listMean,
      listVar, lastN, negIdx, negIdxOpt, DELAY, idPrims, Timelines.get, Timelines.set,
      GTimelines.get, GTimelines.set, Analyst.init, GTimelines.empty, VA.ext_iff',
      decide_eq_true_eq]
  try rfl

/-- State and ghost record of the counterexample session after reading 2. -/
def cexS2 : AnalystState × GTimelines :=
  (⟨0, 1, 1,
        [0, 2],
        [0, 0],
        [⟨0, 0⟩, ⟨2, 0⟩], 2,
        ⟨[], [], [], [], [], []⟩,
        [⟨0, 0⟩, ⟨2, 0⟩],
        [⟨0, 0⟩, ⟨1, 0⟩],
        [⟨0, 0⟩, ⟨1, 0⟩],
        [⟨0, 0⟩, ⟨1, 0⟩],
        [⟨0, 0⟩, ⟨1, 0⟩],
        [⟨0, 0⟩, ⟨1, 0⟩],
        [⟨0, 0⟩, ⟨2, 0⟩],
        [⟨0, 0⟩, ⟨2, 0⟩],
        [⟨0, 0⟩, ⟨1, 0⟩],
        [⟨0, 0⟩, ⟨1, 0⟩],
        [⟨0, 0⟩, ⟨1, 0⟩],
        [⟨0, 0⟩, ⟨1, 0⟩],
        [⟨0, 0⟩, ⟨1, 0⟩]⟩,
       ⟨[], [], [], [], [], []⟩)

set_option maxHeartbeats 2000000 in
theorem cex_step2 :
    add_inference_result_g idPrims cexS1 ⟨2, 0⟩ 31 = cexS2 := by
  norm_num [cexS2, cexS1,
      add_inference_result_g, find_intersections_g, add_intersect_g, ingest_statistics,
      is_intersection, va_moving_average, va_mean, va_variance, va_std, derivative,
      derivative_moving_average, deviation_threshold, sigmoid_threshold,
      derivative_threshold, sigmoid, vaSigmoid, vaSqrt, npMean, npVar, npStd, listMean,
      listVar, lastN, negIdx, negIdxOpt, DELAY, idPrims, Timelines.get, Timelines.set,
      GTimelines.get, GTimelines.set, Analyst.init, GTimelines.empty, VA.ext_iff',
      decide_eq_true_eq]
  try rfl

/-- State and ghost record of the counterexample session after reading 3. -/
def cexS3 : AnalystState × GTimelines :=
  (⟨0, 1, 1,
        [0, 2, (-2)],
        [0, 0, 0],
        [⟨0, 0⟩, ⟨2, 0⟩, ⟨(-2), 0⟩], 3,
        ⟨[32], [32], [32], [32], [32], [32]⟩,
        [⟨0, 0⟩, ⟨2, 0⟩, ⟨(-2), 0⟩],
        [⟨0, 0⟩, ⟨1, 0⟩, ⟨0, 0⟩],
        [⟨0, 0⟩, ⟨1, 0⟩, ⟨(8/3), 0⟩],
        [⟨0, 0⟩, ⟨1, 0⟩, ⟨0, 0⟩],
        [⟨0, 0⟩, ⟨1, 0⟩, ⟨(8/3), 0⟩],
        [⟨0, 0⟩, ⟨1, 0⟩, ⟨(8/3), 0⟩],
        [⟨0, 0⟩, ⟨2, 0⟩, ⟨(-4), 0⟩],
        [⟨0, 0⟩, ⟨2, 0⟩, ⟨(-4), 0⟩],
        [⟨0, 0⟩, ⟨1, 0⟩, ⟨(-2/3), 0⟩],
        [⟨0, 0⟩, ⟨1, 0⟩, ⟨(56/9), 0⟩],
        [⟨0, 0⟩, ⟨1, 0⟩, ⟨(-2/3), 0⟩],
        [⟨0, 0⟩, ⟨1, 0⟩, ⟨(56/9), 0⟩],
        [⟨0, 0⟩, ⟨1, 0⟩, ⟨(56/9), 0⟩]⟩,
       ⟨[(32, false)], [(32, false)], [(32, false)], [(32, false)], [(32, false)], [(32, false)]⟩)

set_option maxHeartbeats 2000000 in
theorem cex_step3 :
    add_inference_result_g idPrims cexS2 ⟨-2, 0⟩ 32 = cexS3 := by
  norm_num [cexS3, cexS2,
      add_inference_result_g, find_intersections_g, add_intersect_g, ingest_statistics,
      is_intersection, va_moving_average, va_mean, va_variance, va_std, derivative,
      derivative_moving_average, deviation_threshold, sigmoid_threshold,
      derivative_threshold, sigmoid, vaSigmoid, vaSqrt, npMean, npVar, npStd, listMean,
      listVar, lastN, negIdx, negIdxOpt, DELAY, idPrims, Timelines.get, Timelines.set,
      GTimelines.get, GTimelines.set, Analyst.init, GTimelines.empty, VA.ext_iff',
      decide_eq_true_eq]
  try rfl

/-- State and ghost record of the counterexample session after reading 4. -/
def cexS4 : AnalystState × GTimelines :=
  (⟨0, 1, 1,
        [0, 2, (-2), 0],
        [0, 0, 0, 0],
        [⟨0, 0⟩, ⟨2, 0⟩, ⟨(-2), 0⟩, ⟨0, 0⟩], 4,
        ⟨[32], [32], [32], [32], [32], [32]⟩,
        [⟨0, 0⟩, ⟨2, 0⟩, ⟨(-2), 0⟩, ⟨0, 0⟩],
        [⟨0, 0⟩, ⟨1, 0⟩, ⟨0, 0⟩, ⟨0, 0⟩],
        [⟨0, 0⟩, ⟨1, 0⟩, ⟨(8/3), 0⟩, ⟨2, 0⟩],
        [⟨0, 0⟩, ⟨1, 0⟩, ⟨0, 0⟩, ⟨0, 0⟩],
        [⟨0, 0⟩, ⟨1, 0⟩, ⟨(8/3), 0⟩, ⟨2, 0⟩],
        [⟨0, 0⟩, ⟨1, 0⟩, ⟨(8/3), 0⟩, ⟨2, 0⟩],
        [⟨0, 0⟩, ⟨2, 0⟩, ⟨(-4), 0⟩, ⟨2, 0⟩],
        [⟨0, 0⟩, ⟨2, 0⟩, ⟨(-4), 0⟩, ⟨2, 0⟩],
        [⟨0, 0⟩, ⟨1, 0⟩, ⟨(-2/3), 0⟩, ⟨0, 0⟩],
        [⟨0, 0⟩, ⟨1, 0⟩, ⟨(56/9), 0⟩, ⟨6, 0⟩],
        [⟨0, 0⟩, ⟨1, 0⟩, ⟨(-2/3), 0⟩, ⟨0, 0⟩],
        [⟨0, 0⟩, ⟨1, 0⟩, ⟨(56/9), 0⟩, ⟨6, 0⟩],
        [⟨0, 0⟩, ⟨1, 0⟩, ⟨(56/9), 0⟩, ⟨6, 0⟩]⟩,
       ⟨[(32, false)], [(32, false)], [(32, false)], [(32, false)], [(32, false)], [(32, false)]⟩)

set_option maxHeartbeats 2000000 in
theorem cex_step4 :
    add_inference_result_g idPrims cexS3 ⟨0, 0⟩ 33 = cexS4 := by
  norm_num [cexS4, cexS3,
      add_inference_result_g, find_intersections_g, add_intersect_g, ingest_statistics,
      is_intersection, va_moving_average, va_mean, va_variance, va_std, derivative,
      derivative_moving_average, deviation_threshold, sigmoid_threshold,
      derivative_threshold, sigmoid, vaSigmoid, vaSqrt, npMean, npVar, npStd, listMean,
      listVar, lastN, negIdx, negIdxOpt, DELAY, idPrims, Timelines.get, Timelines.set,
      GTimelines.get, GTimelines.set, Analyst.init, GTimelines.empty, VA.ext_iff',
      decide_eq_true_eq]
  try rfl

/-- State and ghost record of the counterexample session after reading 5. -/
def cexS5 : AnalystState × GTimelines :=
  (⟨0, 1, 1,
        [0, 2, (-2), 0, 5],
        [0, 0, 0, 0, 0],
        [⟨0, 0⟩, ⟨2, 0⟩, ⟨(-2), 0⟩, ⟨0, 0⟩, ⟨5, 0⟩], 5,
        ⟨[32], [32], [32, 34], [32, 34], [32], [32]⟩,
        [⟨0, 0⟩, ⟨2, 0⟩, ⟨(-2), 0⟩, ⟨0, 0⟩, ⟨5, 0⟩],
        [⟨0, 0⟩, ⟨1, 0⟩, ⟨0, 0⟩, ⟨0, 0⟩, ⟨1, 0⟩],
        [⟨0, 0⟩, ⟨1, 0⟩, ⟨(8/3), 0⟩, ⟨2, 0⟩, ⟨(28/5), 0⟩],
        [⟨0, 0⟩, ⟨1, 0⟩, ⟨0, 0⟩, ⟨0, 0⟩, ⟨1, 0⟩],
        [⟨0, 0⟩, ⟨1, 0⟩, ⟨(8/3), 0⟩, ⟨2, 0⟩, ⟨(28/5), 0⟩],
        [⟨0, 0⟩, ⟨1, 0⟩, ⟨(8/3), 0⟩, ⟨2, 0⟩, ⟨(28/5), 0⟩],
        [⟨0, 0⟩, ⟨2, 0⟩, ⟨(-4), 0⟩, ⟨2, 0⟩, ⟨5, 0⟩],
        [⟨0, 0⟩, ⟨2, 0⟩, ⟨(-4), 0⟩, ⟨2, 0⟩, ⟨5, 0⟩],
        [⟨0, 0⟩, ⟨1, 0⟩, ⟨(-2/3), 0⟩, ⟨0, 0⟩, ⟨1, 0⟩],
        [⟨0, 0⟩, ⟨1, 0⟩, ⟨(56/9), 0⟩, ⟨6, 0⟩, ⟨(44/5), 0⟩],
        [⟨0, 0⟩, ⟨1, 0⟩, ⟨(-2/3), 0⟩, ⟨0, 0⟩, ⟨1, 0⟩],
        [⟨0, 0⟩, ⟨1, 0⟩, ⟨(56/9), 0⟩, ⟨6, 0⟩, ⟨(44/5), 0⟩],
        [⟨0, 0⟩, ⟨1, 0⟩, ⟨(56/9), 0⟩, ⟨6, 0⟩, ⟨(44/5), 0⟩]⟩,
       ⟨[(32, false)], [(32, false)], [(32, false), (34, true)], [(32, false), (34, true)], [(32, false)], [(32, false)]⟩)

set_option maxHeartbeats 2000000 in
theorem cex_step5 :
    add_inference_result_g idPrims cexS4 ⟨5, 0⟩ 34 = cexS5 := by
  norm_num [cexS5, cexS4,
      add_inference_result_g, find_intersections_g, add_intersect_g, ingest_statistics,
      is_intersection, va_moving_average, va_mean, va_variance, va_std, derivative,
      derivative_moving_average, deviation_threshold, sigmoid_threshold,
      derivative_threshold, sigmoid, vaSigmoid, vaSqrt, npMean, npVar, npStd, listMean,
      listVar, lastN, negIdx, negIdxOpt, DELAY, idPrims, Timelines.get, Timelines.set,
      GTimelines.get, GTimelines.set, Analyst.init, GTimelines.empty, VA.ext_iff',
      decide_eq_true_eq]
  try rfl

/-- State and ghost record of the counterexample session after reading 6. -/
def cexS6 : AnalystState × GTimelines :=
  (⟨0, 1, 1,
        [0, 2, (-2), 0, 5, (-7)],
        [0, 0, 0, 0, 0, 0],
        [⟨0, 0⟩, ⟨2, 0⟩, ⟨(-2), 0⟩, ⟨0, 0⟩, ⟨5, 0⟩, ⟨(-7), 0⟩], 6,
        ⟨[32, 35], [32, 35], [32, 34, 35], [32, 34, 35], [32, 35], [32, 35]⟩,
        [⟨0, 0⟩, ⟨2, 0⟩, ⟨(-2), 0⟩, ⟨0, 0⟩, ⟨5, 0⟩, ⟨(-7), 0⟩],
        [⟨0, 0⟩, ⟨1, 0⟩, ⟨0, 0⟩, ⟨0, 0⟩, ⟨1, 0⟩, ⟨(-1/3), 0⟩],
        [⟨0, 0⟩, ⟨1, 0⟩, ⟨(8/3), 0⟩, ⟨2, 0⟩, ⟨(28/5), 0⟩, ⟨(122/9), 0⟩],
        [⟨0, 0⟩, ⟨1, 0⟩, ⟨0, 0⟩, ⟨0, 0⟩, ⟨1, 0⟩, ⟨(-1/3), 0⟩],
        [⟨0, 0⟩, ⟨1, 0⟩, ⟨(8/3), 0⟩, ⟨2, 0⟩, ⟨(28/5), 0⟩, ⟨(122/9), 0⟩],
        [⟨0, 0⟩, ⟨1, 0⟩, ⟨(8/3), 0⟩, ⟨2, 0⟩, ⟨(28/5), 0⟩, ⟨(122/9), 0⟩],
        [⟨0, 0⟩, ⟨2, 0⟩, ⟨(-4), 0⟩, ⟨2, 0⟩, ⟨5, 0⟩, ⟨(-12), 0⟩],
        [⟨0, 0⟩, ⟨2, 0⟩, ⟨(-4), 0⟩, ⟨2, 0⟩, ⟨5, 0⟩, ⟨(-12), 0⟩],
        [⟨0, 0⟩, ⟨1, 0⟩, ⟨(-2/3), 0⟩, ⟨0, 0⟩, ⟨1, 0⟩, ⟨(-7/6), 0⟩],
        [⟨0, 0⟩, ⟨1, 0⟩, ⟨(56/9), 0⟩, ⟨6, 0⟩, ⟨(44/5), 0⟩, ⟨(1109/36), 0⟩],
        [⟨0, 0⟩, ⟨1, 0⟩, ⟨(-2/3), 0⟩, ⟨0, 0⟩, ⟨1, 0⟩, ⟨(-7/6), 0⟩],
        [⟨0, 0⟩, ⟨1, 0⟩, ⟨(56/9), 0⟩, ⟨6, 0⟩, ⟨(44/5), 0⟩, ⟨(1109/36), 0⟩],
        [⟨0, 0⟩, ⟨1, 0⟩, ⟨(56/9), 0⟩, ⟨6, 0⟩, ⟨(44/5), 0⟩, ⟨(1109/36), 0⟩]⟩,
       ⟨[(32, false), (35, false)], [(32, false), (35, false)], [(32, false), (34, true), (35, false)], [(32, false), (34, true), (35, false)], [(32, false), (35, false)], [(32, false), (35, false)]⟩)

set_option maxHeartbeats 2000000 in
theorem cex_step6 :
    add_inference_result_g idPrims cexS5 ⟨-7, 0⟩ 35 = cexS6 := by
  norm_num [cexS6, cexS5,
      add_inference_result_g, find_intersections_g, add_intersect_g, ingest_statistics,
      is_intersection, va_moving_average, va_mean, va_variance, va_std, derivative,
      derivative_moving_average, deviation_threshold, sigmoid_threshold,
      derivative_threshold, sigmoid, vaSigmoid, vaSqrt, npMean, npVar, npStd, listMean,
      listVar, lastN, negIdx, negIdxOpt, DELAY, idPrims, Timelines.get, Timelines.set,
      GTimelines.get, GTimelines.set, Analyst.init, GTimelines.empty, VA.ext_iff',
      decide_eq_true_eq]
  try rfl

theorem cex_run_g_eval :
    run_g idPrims (Analyst.init 0 1 1, GTimelines.empty) cexInputs = cexS6 := by
  simp only [cexInputs, run_g, List.foldl_cons, List.foldl_nil]
  rw [cex_step1, cex_step2, cex_step3, cex_step4, cex_step5, cex_step6]

/-- Counterexample for C2: in the session `cexInputs`, the
`local_deviation` timeline receives the two timestamps 32 and 35, and both
were appended by the straight (opening, `check_oddity = false`) test — the
second opening lands right after the first with no closing entry between
them, so the timeline does not alternate open, close, open, close. -/
theorem C2_alternation_counterexample :
    (run_g idPrims (Analyst.init 0 1 1, GTimelines.empty) cexInputs).2.get
        Activator.local_deviation = [(32, false), (35, false)] ∧
    (runInit idPrims 0 1 1 cexInputs).intersections.get Activator.local_deviation
      = [32, 35] := by
  constructor
  · rw [cex_run_g_eval]
    rfl
  · have hf := run_g_fst idPrims cexInputs (Analyst.init 0 1 1, GTimelines.empty)
    unfold runInit
    rw [show (Analyst.init 0 1 1, GTimelines.empty).1 = Analyst.init 0 1 1 from rfl] at hf
    rw [← hf, cex_run_g_eval]
    rfl

/-- C2 (amended): the reversed (closing) test appends only when the kind's
timeline currently has odd length — concretely, `add_intersect` with
`check_oddity = true` is the identity on even-length timelines, every
closing-tagged entry of the ghost record sits at an odd index (the ghost's
timestamp projection being exactly the real timeline), and two
consecutive entries can never both be closings.  Strict open/close
alternation, however, does not hold: the ungated opening test can append
two consecutive opening entries, as the counterexample session shows. -/
theorem C2_closing_parity (P : MathPrims) (s : ℚ) (W Wd : ℕ) (inputs : List (VA × ℚ)) :
    (∀ act, ((run_g P (Analyst.init s W Wd, GTimelines.empty) inputs).2.get act).map
        Prod.fst = (runInit P s W Wd inputs).intersections.get act) ∧
    (∀ act i τ,
      ((run_g P (Analyst.init s W Wd, GTimelines.empty) inputs).2.get act).get? i
          = some (τ, true) → i % 2 = 1) ∧
    (∀ act i τ1 τ2,
      ((run_g P (Analyst.init s W Wd, GTimelines.empty) inputs).2.get act).get? i
          = some (τ1, true) →
      ((run_g P (Analyst.init s W Wd, GTimelines.empty) inputs).2.get act).get? (i + 1)
          = some (τ2, true) → False) ∧
    (∀ (st : AnalystState) (d c : List ℚ) (act : Activator) (t : ℚ),
      (st.intersections.get act).length % 2 = 0 → add_intersect st d c act true t = st) := by
  have hinv := run_g_inv P inputs (Analyst.init s W Wd, GTimelines.empty) (gsync_init s W Wd)
  have hf := run_g_fst P inputs (Analyst.init s W Wd, GTimelines.empty)
  refine ⟨?_, hinv.2, ?_, ?_⟩
  · intro act
    unfold runInit
    rw [show (Analyst.init s W Wd, GTimelines.empty).1 = Analyst.init s W Wd from rfl] at hf
    rw [← hf]
    exact hinv.1 act
  · intro act i τ1 τ2 h1 h2
    have o1 := hinv.2 act i τ1 h1
    have o2 := hinv.2 act (i + 1) τ2 h2
    omega
  · intro st d c act t h
    unfold add_intersect
    have hcond : ¬ ((!true || (st.intersections.get act).length % 2 == 1) = true) := by
      simp [h]
    rw [if_neg hcond]

/-- Witness for the amended C2: the reversed test on an even (empty)
timeline leaves the state untouched. -/
theorem C2_closing_parity_witness :
    add_intersect (Analyst.init 1 1 1) [] [] Activator.global_deviation true 5
      = Analyst.init 1 1 1 :=
  (C2_closing_parity idPrims 1 1 1 []).2.2.2 (Analyst.init 1 1 1) [] []
    Activator.global_deviation 5 (by decide)

end ADTA
